import Mathlib

/-!
Shallow embedding of the Bughouse chess server core
(`src/server/chess.js` and the two session-coordinator variants
`src/server/index.js` / the hardened server file), together with proofs
about the claims of the specification.

Modelling conventions:
* a JS board (8x8 array of nullable piece objects) is a total function
  `Fin 8 → Fin 8 → Option Piece`; `at?` / `setB` take `Int` coordinates and
  mirror the source's bounds-guarded indexing (`at?` returns `none` out of
  range, `setB` is a no-op out of range — the JS code always guards indexing
  with `isValidPosition`, and unguarded out-of-range accesses would throw);
* the unbounded `while` ray walks are coded with fuel 8, which is enough to
  leave the 8x8 board from any starting square;
* JS result objects `{success, error}` / `{success, gameState, capturedPiece}`
  become the inductives `MoveResult` / `DropResult`.
-/

namespace Bughouse

inductive PieceType
  | king | queen | rook | bishop | knight | pawn
deriving DecidableEq

inductive Color
  | white | black
deriving DecidableEq

def Color.other : Color → Color
  | .white => .black
  | .black => .white

structure Piece where
  type : PieceType
  color : Color
deriving DecidableEq

/-- One board cell per `(row, col)` pair; row 0 is black's home rank. -/
def Board := Fin 8 → Fin 8 → Option Piece

instance : DecidableEq Board := by unfold Board; infer_instance

/-- `isValidPosition` from chess.js: both coordinates in `[0, 7]`. -/
def isValidPosition (r c : Int) : Bool :=
  decide (0 ≤ r) && decide (r ≤ 7) && decide (0 ≤ c) && decide (c ≤ 7)

theorem isValidPosition_iff {r c : Int} :
    isValidPosition r c = true ↔ 0 ≤ r ∧ r ≤ 7 ∧ 0 ≤ c ∧ c ≤ 7 := by
  simp [isValidPosition, and_assoc]

/-- Bounds-guarded board read (`getPieceAt` in chess.js). -/
def at? (b : Board) (r c : Int) : Option Piece :=
  if h : 0 ≤ r ∧ r < 8 ∧ 0 ≤ c ∧ c < 8 then
    b ⟨r.toNat, by omega⟩ ⟨c.toNat, by omega⟩
  else none

/-- Board write at `Int` coordinates (array-cell assignment in chess.js). -/
def setB (b : Board) (r c : Int) (v : Option Piece) : Board :=
  fun i j => if (i.val : Int) = r ∧ (j.val : Int) = c then v else b i j

theorem at?_setB_self {r c : Int} (b : Board) (v : Option Piece)
    (h : isValidPosition r c = true) : at? (setB b r c v) r c = v := by
  rcases isValidPosition_iff.mp h with ⟨h1, h2, h3, h4⟩
  have hv : 0 ≤ r ∧ r < 8 ∧ 0 ≤ c ∧ c < 8 := by omega
  simp only [at?, setB]
  rw [dif_pos hv]
  split
  · rfl
  · next hne => exact absurd ⟨by omega, by omega⟩ hne

theorem at?_setB_ne {r c r' c' : Int} (b : Board) (v : Option Piece)
    (h : r' ≠ r ∨ c' ≠ c) : at? (setB b r c v) r' c' = at? b r' c' := by
  simp only [at?, setB]
  split
  · next hv =>
    rw [if_neg]
    intro ⟨hr, hc⟩
    rcases h with h | h
    · exact h (by omega)
    · exact h (by omega)
  · rfl

theorem setB_invalid {r c : Int} (b : Board) (v : Option Piece)
    (h : isValidPosition r c = false) : setB b r c v = b := by
  have h' : ¬ (0 ≤ r ∧ r ≤ 7 ∧ 0 ≤ c ∧ c ≤ 7) := by
    intro hx
    rw [isValidPosition_iff.mpr hx] at h
    exact absurd h (by decide)
  funext i j
  simp only [setB]
  rw [if_neg]
  intro ⟨hr, hc⟩
  exact h' ⟨by omega, by omega, by omega, by omega⟩

theorem at?_some_valid {b : Board} {r c : Int} {p : Piece}
    (h : at? b r c = some p) : isValidPosition r c = true := by
  by_cases hv : 0 ≤ r ∧ r < 8 ∧ 0 ≤ c ∧ c < 8
  · exact isValidPosition_iff.mpr ⟨by omega, by omega, by omega, by omega⟩
  · rw [at?, dif_neg hv] at h
    exact absurd h (by simp)

theorem at?_invalid {b : Board} {r c : Int}
    (h : isValidPosition r c = false) : at? b r c = none := by
  have h' : ¬ (0 ≤ r ∧ r < 8 ∧ 0 ≤ c ∧ c < 8) := by
    intro hx
    rw [isValidPosition_iff.mpr ⟨by omega, by omega, by omega, by omega⟩] at h
    exact absurd h (by decide)
  rw [at?, dif_neg h']

/-! ### Game state -/

inductive CastleSide
  | kingSide | queenSide
deriving DecidableEq

structure CastlingRights where
  kingSide : Bool
  queenSide : Bool
deriving DecidableEq

/-- `castlingRights` object of chess.js, one `CastlingRights` per color. -/
structure BothRights where
  white : CastlingRights
  black : CastlingRights
deriving DecidableEq

def BothRights.get (br : BothRights) : Color → CastlingRights
  | .white => br.white
  | .black => br.black

def BothRights.set (br : BothRights) : Color → CastlingRights → BothRights
  | .white, v => { br with white := v }
  | .black, v => { br with black := v }

/-- Destination descriptor produced by the move generators
(the JS move objects `{toRow, toCol, capture?, enPassant?, castling?}`). -/
structure MoveC where
  toRow : Int
  toCol : Int
  capture : Bool := false
  enPassant : Bool := false
  castling : Option CastleSide := none
deriving DecidableEq

/-- `moveHistory` entries (NormalMove / DropMove records). -/
inductive HistEntry
  | move (fromSq toSq : Int × Int) (piece : Piece) (captured : Option Piece)
      (castling : Option CastleSide) (enPassant : Bool)
      (promotion : Option PieceType)
  | drop (pieceType : PieceType) (toSq : Int × Int) (color : Color)
deriving DecidableEq

structure GameState where
  board : Board
  turn : Color
  castlingRights : BothRights
  enPassantTarget : Option (Int × Int)
  moveHistory : List HistEntry
  capturedPieces : List Piece
  isCheck : Bool
  isCheckmate : Bool
  isStalemate : Bool
  winner : Option Color
deriving DecidableEq

def backRank : List PieceType :=
  [.rook, .knight, .bishop, .queen, .king, .bishop, .knight, .rook]

/-- `createInitialBoard`: pawns on rows 1 and 6, back ranks on rows 0 and 7. -/
def createInitialBoard : Board := fun i j =>
  if i.val = 1 then some ⟨.pawn, .black⟩
  else if i.val = 6 then some ⟨.pawn, .white⟩
  else if i.val = 0 then some ⟨backRank.getD j.val .rook, .black⟩
  else if i.val = 7 then some ⟨backRank.getD j.val .rook, .white⟩
  else none

def createGameState : GameState where
  board := createInitialBoard
  turn := .white
  castlingRights := ⟨⟨true, true⟩, ⟨true, true⟩⟩
  enPassantTarget := none
  moveHistory := []
  capturedPieces := []
  isCheck := false
  isCheckmate := false
  isStalemate := false
  winner := none

/-! ### Attack detection -/

def knightOffsets : List (Int × Int) :=
  [(-2, -1), (-2, 1), (-1, -2), (-1, 2), (1, -2), (1, 2), (2, -1), (2, 1)]

def kingOffsets : List (Int × Int) :=
  [(-1, -1), (-1, 0), (-1, 1), (0, -1), (0, 1), (1, -1), (1, 0), (1, 1)]

def straightDirs : List (Int × Int) := [(0, 1), (0, -1), (1, 0), (-1, 0)]

def diagDirs : List (Int × Int) := [(1, 1), (1, -1), (-1, 1), (-1, -1)]

/-- First piece along a ray (the `while` loops of `isSquareAttacked`);
fuel 8 always suffices to leave the board. -/
def rayFirst (b : Board) (dr dc : Int) : Int → Int → Nat → Option Piece
  | _, _, 0 => none
  | r, c, fuel + 1 =>
    if isValidPosition r c = true then
      match at? b r c with
      | some p => some p
      | none => rayFirst b dr dc (r + dr) (c + dc) fuel
    else none

/-- `isSquareAttacked(board, row, col, byColor)` from chess.js. -/
def isSquareAttacked (b : Board) (row col : Int) (byColor : Color) : Bool :=
  let pawnDir : Int := if byColor = Color.white then 1 else -1
  let hits (offs : List (Int × Int)) (ty : PieceType) : Bool :=
    offs.any fun od =>
      isValidPosition (row + od.1) (col + od.2) &&
        match at? b (row + od.1) (col + od.2) with
        | some p => p.type == ty && p.color == byColor
        | none => false
  let rayHits (dirs : List (Int × Int)) (ty1 ty2 : PieceType) : Bool :=
    dirs.any fun od =>
      match rayFirst b od.1 od.2 (row + od.1) (col + od.2) 8 with
      | some p => p.color == byColor && (p.type == ty1 || p.type == ty2)
      | none => false
  hits [(pawnDir, -1), (pawnDir, 1)] .pawn ||
  hits knightOffsets .knight ||
  hits kingOffsets .king ||
  rayHits straightDirs .rook .queen ||
  rayHits diagDirs .bishop .queen

/-- Row-major list of all 64 squares, as `Int` pairs. -/
def allSquares : List (Int × Int) :=
  (List.range 8).flatMap fun (r : Nat) =>
    (List.range 8).map fun (c : Nat) => ((r : Int), (c : Int))

def isKingAt (b : Board) (sq : Int × Int) (color : Color) : Bool :=
  match at? b sq.1 sq.2 with
  | some p => p.type == PieceType.king && p.color == color
  | none => false

/-- `findKing`: first square (row-major) holding this color's king. -/
def findKing (b : Board) (color : Color) : Option (Int × Int) :=
  allSquares.find? fun sq => isKingAt b sq color

/-- `isInCheck`: `false` when the king is missing, else attack test. -/
def isInCheck (b : Board) (color : Color) : Bool :=
  match findKing b color with
  | none => false
  | some kp => isSquareAttacked b kp.1 kp.2 color.other

/-! ### Pseudo-legal move generation -/

/-- `getPawnMoves(board, row, col, color, enPassantTarget)`. -/
def getPawnMoves (b : Board) (row col : Int) (color : Color)
    (ep : Option (Int × Int)) : List MoveC :=
  let direction : Int := if color = Color.white then -1 else 1
  let startRow : Int := if color = Color.white then 6 else 1
  let newRow := row + direction
  let forward : List MoveC :=
    if isValidPosition newRow col = true ∧ at? b newRow col = none then
      { toRow := newRow, toCol := col } ::
        (if row = startRow ∧ at? b (row + 2 * direction) col = none then
          [{ toRow := row + 2 * direction, toCol := col }] else [])
    else []
  let caps (dc : Int) : List MoveC :=
    if isValidPosition newRow (col + dc) = true then
      (match at? b newRow (col + dc) with
        | some target =>
          if target.color ≠ color then
            [{ toRow := newRow, toCol := col + dc, capture := true }]
          else []
        | none => []) ++
      (match ep with
        | some e =>
          if e.1 = newRow ∧ e.2 = col + dc then
            [{ toRow := newRow, toCol := col + dc, enPassant := true }]
          else []
        | none => [])
    else []
  forward ++ caps (-1) ++ caps 1

/-- Sliding-piece ray (the `while` loops of `getRookMoves`/`getBishopMoves`). -/
def rayMoves (b : Board) (color : Color) (dr dc : Int) :
    Int → Int → Nat → List MoveC
  | _, _, 0 => []
  | r, c, fuel + 1 =>
    if isValidPosition r c = true then
      match at? b r c with
      | none => { toRow := r, toCol := c } :: rayMoves b color dr dc (r + dr) (c + dc) fuel
      | some p =>
        if p.color ≠ color then [{ toRow := r, toCol := c, capture := true }]
        else []
    else []

def getRookMoves (b : Board) (row col : Int) (color : Color) : List MoveC :=
  straightDirs.flatMap fun od =>
    rayMoves b color od.1 od.2 (row + od.1) (col + od.2) 8

def getBishopMoves (b : Board) (row col : Int) (color : Color) : List MoveC :=
  diagDirs.flatMap fun od =>
    rayMoves b color od.1 od.2 (row + od.1) (col + od.2) 8

def getKnightMoves (b : Board) (row col : Int) (color : Color) : List MoveC :=
  knightOffsets.filterMap fun od =>
    let nr := row + od.1
    let nc := col + od.2
    if isValidPosition nr nc = true then
      match at? b nr nc with
      | some p =>
        if p.color ≠ color then some { toRow := nr, toCol := nc, capture := true }
        else none
      | none => some { toRow := nr, toCol := nc, capture := false }
    else none

def getQueenMoves (b : Board) (row col : Int) (color : Color) : List MoveC :=
  getRookMoves b row col color ++ getBishopMoves b row col color

/-- `getKingMoves`, including the castling candidates with their guards. -/
def getKingMoves (b : Board) (row col : Int) (color : Color)
    (cr : CastlingRights) : List MoveC :=
  let normal : List MoveC := kingOffsets.filterMap fun od =>
    let nr := row + od.1
    let nc := col + od.2
    if isValidPosition nr nc = true then
      match at? b nr nc with
      | some p =>
        if p.color ≠ color then some { toRow := nr, toCol := nc, capture := true }
        else none
      | none => some { toRow := nr, toCol := nc, capture := false }
    else none
  let enemy := color.other
  let castles : List MoveC :=
    if isSquareAttacked b row col enemy = false then
      (if cr.kingSide = true ∧ at? b row 5 = none ∧ at? b row 6 = none ∧
          isSquareAttacked b row 5 enemy = false ∧
          isSquareAttacked b row 6 enemy = false then
        [{ toRow := row, toCol := 6, castling := some .kingSide }] else []) ++
      (if cr.queenSide = true ∧ at? b row 1 = none ∧ at? b row 2 = none ∧
          at? b row 3 = none ∧
          isSquareAttacked b row 2 enemy = false ∧
          isSquareAttacked b row 3 enemy = false then
        [{ toRow := row, toCol := 2, castling := some .queenSide }] else [])
    else []
  normal ++ castles

/-- `getPseudoLegalMoves(board, row, col, gameState)`; dispatch on piece type. -/
def getPseudoLegalMoves (gs : GameState) (row col : Int) : List MoveC :=
  match at? gs.board row col with
  | none => []
  | some piece =>
    match piece.type with
    | .pawn => getPawnMoves gs.board row col piece.color gs.enPassantTarget
    | .rook => getRookMoves gs.board row col piece.color
    | .bishop => getBishopMoves gs.board row col piece.color
    | .knight => getKnightMoves gs.board row col piece.color
    | .queen => getQueenMoves gs.board row col piece.color
    | .king => getKingMoves gs.board row col piece.color
        (gs.castlingRights.get piece.color)

/-- Board after speculatively applying a candidate during legality filtering
(`getLegalMoves`: move the piece, then en-passant removal, then rook hop). -/
def testApply (b : Board) (piece : Piece) (row col : Int) (m : MoveC) : Board :=
  let t1 := setB (setB b m.toRow m.toCol (some piece)) row col none
  let t2 :=
    if m.enPassant = true then
      setB t1 (if piece.color = Color.white then m.toRow + 1 else m.toRow - 1)
        m.toCol none
    else t1
  match m.castling with
  | some .kingSide =>
      setB (setB t2 m.toRow 5 (at? t2 m.toRow 7)) m.toRow 7 none
  | some .queenSide =>
      setB (setB t2 m.toRow 3 (at? t2 m.toRow 0)) m.toRow 0 none
  | none => t2

/-- `getLegalMoves(gameState, row, col)`: pseudo-legal candidates filtered by
"own king not attacked after the simulated move". -/
def getLegalMoves (gs : GameState) (row col : Int) : List MoveC :=
  match at? gs.board row col with
  | none => []
  | some piece =>
    (getPseudoLegalMoves gs row col).filter fun m =>
      !(isInCheck (testApply gs.board piece row col m) piece.color)

/-! ### Applying a move (`makeMove`) -/

inductive MoveResult
  | ok (gameState : GameState) (capturedPiece : Option Piece)
  | err (msg : String)
deriving DecidableEq

def MoveResult.success : MoveResult → Bool
  | .ok _ _ => true
  | .err _ => false

def MoveResult.stateOf : MoveResult → Option GameState
  | .ok gs _ => some gs
  | .err _ => none

def MoveResult.capturedOf : MoveResult → Option Piece
  | .ok _ cap => cap
  | .err _ => none

/-- Row of the pawn removed by an en-passant capture
(`capturedPawnRow` in chess.js). -/
def epRow (color : Color) (toRow : Int) : Int :=
  if color = Color.white then toRow + 1 else toRow - 1

/-- The captured piece of a successful move: the en-passant victim, else the
content of the destination square (`capture || newBoard[toRow][toCol]`
collapses to "whatever sits on the destination"). -/
def capturedOfMove (b : Board) (piece : Piece) (m : MoveC) (tr tc : Int) :
    Option Piece :=
  if m.enPassant = true then at? b (epRow piece.color tr) tc
  else if m.capture || (at? b tr tc).isSome then at? b tr tc else none

/-- Board after a successful `makeMove`, in source order: en-passant removal,
piece move, pawn promotion, castling rook relocation.  The JS promotion step
mutates the (always present) destination piece in place; `Option.map` mirrors
this on the occupied cell. -/
def newBoardOfMove (b : Board) (piece : Piece) (m : MoveC)
    (fr fc tr tc : Int) (promotion : Option PieceType) : Board :=
  let b1 := if m.enPassant = true then setB b (epRow piece.color tr) tc none else b
  let b2 := setB b1 tr tc (some piece)
  let b3 := setB b2 fr fc none
  let b4 :=
    if piece.type = PieceType.pawn ∧
        tr = (if piece.color = Color.white then (0 : Int) else 7) then
      setB b3 tr tc ((at? b3 tr tc).map fun p =>
        { p with type := promotion.getD .queen })
    else b3
  match m.castling with
  | some .kingSide => setB (setB b4 tr 5 (at? b4 tr 7)) tr 7 none
  | some .queenSide => setB (setB b4 tr 3 (at? b4 tr 0)) tr 0 none
  | none => b4

/-- Revoke a color's queen-side right when the column is 0 and its king-side
right when the column is 7 (the twice-repeated pattern of the JS
castling-rights update, for the moved rook's source column and a captured
rook's destination column). -/
def clearRookCols (q : BothRights) (pc : Color) (x : Int) : BothRights :=
  let a := if x = 0 then q.set pc { q.get pc with queenSide := false } else q
  if x = 7 then a.set pc { a.get pc with kingSide := false } else a

/-- Castling-rights update of `makeMove` (king move, rook move by source
column, rook captured by destination column). -/
def updateCastlingRights (br : BothRights) (piece : Piece)
    (fromCol toCol : Int) (captured : Option Piece) : BothRights :=
  let r1 :=
    if piece.type = PieceType.king then
      br.set piece.color ⟨false, false⟩
    else br
  let r2 :=
    if piece.type = PieceType.rook then clearRookCols r1 piece.color fromCol
    else r1
  match captured with
  | some cp =>
    if cp.type = PieceType.rook then clearRookCols r2 cp.color toCol else r2
  | none => r2

/-- New en-passant target: the passed-over square of a pawn double step. -/
def newEpTarget (piece : Piece) (fr fc tr : Int) : Option (Int × Int) :=
  if piece.type = PieceType.pawn ∧ (tr - fr).natAbs = 2 then
    some ((fr + tr) / 2, fc)
  else none

/-- Terminal-state recomputation shared (verbatim in the JS source) by
`makeMove` and `dropPiece`: set `isCheck` for the new side to move, scan all
of that side's pieces for a legal move, and set
`isCheckmate`/`isStalemate`/`winner`. -/
def recomputeTerminal (g : GameState) (mover : Color) : GameState :=
  let g1 := { g with isCheck := isInCheck g.board g.turn }
  let hasMoves := allSquares.any fun sq =>
    match at? g1.board sq.1 sq.2 with
    | some p => p.color == g1.turn && !(getLegalMoves g1 sq.1 sq.2).isEmpty
    | none => false
  if hasMoves then g1
  else if g1.isCheck then { g1 with isCheckmate := true, winner := some mover }
  else { g1 with isStalemate := true }

/-- The successful-branch result state of `makeMove`. -/
def succState (s : GameState) (piece : Piece) (m : MoveC)
    (fr fc tr tc : Int) (promotion : Option PieceType) : GameState :=
  let cap := capturedOfMove s.board piece m tr tc
  let mid : GameState :=
    { s with
      board := newBoardOfMove s.board piece m fr fc tr tc promotion
      turn := s.turn.other
      castlingRights := updateCastlingRights s.castlingRights piece fc tc cap
      enPassantTarget := newEpTarget piece fr fc tr
      moveHistory := s.moveHistory ++
        [.move (fr, fc) (tr, tc) piece cap m.castling m.enPassant promotion]
      isCheck := false
      isCheckmate := false
      isStalemate := false
      winner := none }
  recomputeTerminal mid s.turn

/-- `makeMove(gameState, fromRow, fromCol, toRow, toCol, promotion)`. -/
def makeMove (s : GameState) (fr fc tr tc : Int)
    (promotion : Option PieceType) : MoveResult :=
  match at? s.board fr fc with
  | none => .err "Invalid piece or not your turn"
  | some piece =>
    if piece.color ≠ s.turn then .err "Invalid piece or not your turn"
    else
      match (getLegalMoves s fr fc).find? fun m =>
          m.toRow == tr && m.toCol == tc with
      | none => .err "Illegal move"
      | some m =>
        .ok (succState s piece m fr fc tr tc promotion)
          (capturedOfMove s.board piece m tr tc)

/-! ### Drops -/

inductive DropResult
  | ok (gameState : GameState)
  | err (msg : String)
deriving DecidableEq

def DropResult.success : DropResult → Bool
  | .ok _ => true
  | .err _ => false

def DropResult.stateOf : DropResult → Option GameState
  | .ok gs => some gs
  | .err _ => none

/-- `canDropPiece`: destination must be empty, and pawns may not be dropped
on the first or last rank (the `color` parameter is unused, as in the JS). -/
def canDropPiece (b : Board) (pieceType : PieceType) (row col : Int)
    (color : Color) : Bool :=
  if (at? b row col).isSome then false
  else if pieceType = PieceType.pawn ∧ (row = 0 ∨ row = 7) then false
  else true

/-- The successful-branch result state of `dropPiece`. -/
def dropSuccState (s : GameState) (pieceType : PieceType) (row col : Int)
    (color : Color) : GameState :=
  let nb := setB s.board row col (some ⟨pieceType, color⟩)
  let mid : GameState :=
    { s with
      board := nb
      turn := color.other
      enPassantTarget := none
      moveHistory := s.moveHistory ++ [.drop pieceType (row, col) color]
      isCheck := false
      isCheckmate := false
      isStalemate := false
      winner := none }
  recomputeTerminal mid color

/-- `dropPiece(gameState, pieceType, row, col, color)`. -/
def dropPiece (s : GameState) (pieceType : PieceType) (row col : Int)
    (color : Color) : DropResult :=
  if s.turn ≠ color then .err "Not your turn"
  else if canDropPiece s.board pieceType row col color = false then
    .err "Cannot drop piece there"
  else if isInCheck (setB s.board row col (some ⟨pieceType, color⟩)) color then
    .err "Cannot drop piece - would be in check"
  else .ok (dropSuccState s pieceType row col color)

/-- `getValidDropSquares(board, pieceType, color)`: all squares passing
`canDropPiece` whose simulated placement leaves the king unattacked. -/
def getValidDropSquares (b : Board) (pieceType : PieceType) (color : Color) :
    List (Int × Int) :=
  allSquares.filter fun sq =>
    canDropPiece b pieceType sq.1 sq.2 color &&
      !(isInCheck (setB b sq.1 sq.2 (some ⟨pieceType, color⟩)) color)

/-! ### Session coordinator (`src/server/index.js`, with the hardened
variant's differing pieces modelled alongside) -/

structure Player where
  id : Nat
  position : Nat
deriving DecidableEq

structure Room where
  players : List Player
  gameStarted : Bool
  boards : GameState × GameState
  pieceBanks : Nat → List Piece

/-- `getTeammate`: the fixed permutation 0↔2, 1↔3 (a JS object lookup;
other indices never occur for seated players). -/
def getTeammate (i : Nat) : Nat :=
  if i = 0 then 2 else if i = 1 then 3 else if i = 2 then 0
  else if i = 3 then 1 else i

def getPlayerBoard (i : Nat) : Nat := if i < 2 then 0 else 1

/-- `getPlayerColor` of `src/server/index.js`: even seats white, odd black
(teammates share a color under this mapping). -/
def getPlayerColor (i : Nat) : Color :=
  if i % 2 = 0 then .white else .black

/-- `getPlayerColor` of the hardened server variant: seats 0 and 3 white,
seats 1 and 2 black (teammates play opposite colors). -/
def getPlayerColorH (i : Nat) : Color :=
  if i = 0 ∨ i = 3 then .white else .black

def getPlayerTeam (i : Nat) : String := if i % 2 = 0 then "A" else "B"

/-- `isValidPieceType` of the hardened server: membership in the six
single-letter piece codes. -/
def isValidPieceType (t : String) : Bool :=
  ["k", "q", "r", "b", "n", "p"].contains t

def pieceCode : PieceType → String
  | .king => "k"
  | .queen => "q"
  | .rook => "r"
  | .bishop => "b"
  | .knight => "n"
  | .pawn => "p"

def boardGet (r : Room) (i : Nat) : GameState :=
  if i = 0 then r.boards.1 else r.boards.2

def boardSet (r : Room) (i : Nat) (gs : GameState) : Room :=
  if i = 0 then { r with boards := (gs, r.boards.2) }
  else { r with boards := (r.boards.1, gs) }

/-- Events emitted while handling an action (`moveError` to the actor,
`gameState` and `gameOver` broadcasts). -/
inductive SEvent
  | moveError (msg : String)
  | gameStateB
  | gameOver (winner : Option String) (reason : String) (boardIndex : Nat)
deriving DecidableEq

/-- `makeMove` socket handler of `src/server/index.js`: ownership and turn
gating, engine call, capture transfer to the teammate's bank recolored to
`getPlayerColor(teammate)`, broadcast, and `gameOver` on a terminal state. -/
def handleMakeMove (room : Room) (playerId : Nat) (boardIndex : Nat)
    (fromSq toSq : Int × Int) (promotion : Option PieceType) :
    Room × List SEvent :=
  if room.gameStarted = false then (room, []) else
  match room.players.find? fun p => p.id == playerId with
  | none => (room, [])
  | some player =>
    let expectedBoard := getPlayerBoard player.position
    let expectedColor := getPlayerColor player.position
    if boardIndex ≠ expectedBoard then (room, [.moveError "Wrong board"]) else
    let gameState := boardGet room boardIndex
    if gameState.turn ≠ expectedColor then
      (room, [.moveError "Not your turn"])
    else
      match makeMove gameState fromSq.1 fromSq.2 toSq.1 toSq.2 promotion with
      | .err e => (room, [.moveError e])
      | .ok gs2 captured =>
        let room1 := boardSet room boardIndex gs2
        let room2 :=
          match captured with
          | some cp =>
            let tm := getTeammate player.position
            { room1 with pieceBanks := fun j =>
                if j = tm then
                  room1.pieceBanks tm ++ [⟨cp.type, getPlayerColor tm⟩]
                else room1.pieceBanks j }
          | none => room1
        let evs : List SEvent :=
          [.gameStateB] ++
            (if gs2.isCheckmate then
              [.gameOver (some (getPlayerTeam player.position)) "checkmate"
                boardIndex]
            else if gs2.isStalemate then
              [.gameOver none "stalemate" boardIndex]
            else [])
        (room2, evs)

/-- `dropPiece` socket handler of `src/server/index.js`: turn gating, bank
lookup (`findIndex` + `splice`), engine call, broadcast; note this variant
emits `gameOver` only for checkmate, not for stalemate. -/
def handleDropPiece (room : Room) (playerId : Nat) (pieceType : PieceType)
    (row col : Int) : Room × List SEvent :=
  if room.gameStarted = false then (room, []) else
  match room.players.find? fun p => p.id == playerId with
  | none => (room, [])
  | some player =>
    let boardIndex := getPlayerBoard player.position
    let playerColor := getPlayerColor player.position
    let gameState := boardGet room boardIndex
    if gameState.turn ≠ playerColor then (room, [.moveError "Not your turn"])
    else
      let bank := room.pieceBanks player.position
      match bank.findIdx? fun p => p.type == pieceType && p.color == playerColor with
      | none => (room, [.moveError "Piece not in bank"])
      | some pieceIndex =>
        match dropPiece gameState pieceType row col playerColor with
        | .err e => (room, [.moveError e])
        | .ok gs2 =>
          let room1 := { boardSet room boardIndex gs2 with
            pieceBanks := fun j =>
              if j = player.position then bank.eraseIdx pieceIndex
              else room.pieceBanks j }
          let evs : List SEvent :=
            [.gameStateB] ++
              (if gs2.isCheckmate then
                [.gameOver (some (getPlayerTeam player.position)) "checkmate"
                  boardIndex]
              else [])
          (room1, evs)

/-- `dropPiece` socket handler of the hardened server variant: adds input
validation, uses the opposite-color seat mapping, and also emits `gameOver`
for stalemate. -/
def handleDropPieceH (room : Room) (playerId : Nat) (pieceType : PieceType)
    (row col : Int) : Room × List SEvent :=
  if isValidPieceType (pieceCode pieceType) = false ∨
      isValidPosition row col = false then
    (room, [.moveError "Invalid input"])
  else if room.gameStarted = false then (room, []) else
  match room.players.find? fun p => p.id == playerId with
  | none => (room, [])
  | some player =>
    let boardIndex := getPlayerBoard player.position
    let playerColor := getPlayerColorH player.position
    let gameState := boardGet room boardIndex
    if gameState.turn ≠ playerColor then (room, [.moveError "Not your turn"])
    else
      let bank := room.pieceBanks player.position
      match bank.findIdx? fun p => p.type == pieceType && p.color == playerColor with
      | none => (room, [.moveError "Piece not in bank"])
      | some pieceIndex =>
        match dropPiece gameState pieceType row col playerColor with
        | .err e => (room, [.moveError e])
        | .ok gs2 =>
          let room1 := { boardSet room boardIndex gs2 with
            pieceBanks := fun j =>
              if j = player.position then bank.eraseIdx pieceIndex
              else room.pieceBanks j }
          let evs : List SEvent :=
            [.gameStateB] ++
              (if gs2.isCheckmate then
                [.gameOver (some (getPlayerTeam player.position)) "checkmate"
                  boardIndex]
              else if gs2.isStalemate then
                [.gameOver none "stalemate" boardIndex]
              else [])
          (room1, evs)

/-! ### Concrete fixtures used by witnesses and counterexamples -/

def emptyB : Board := fun _ _ => none

/-- Place a piece on a fixture board (test-data helper, `Nat` coordinates). -/
def placeP (b : Board) (r c : Nat) (p : Piece) : Board :=
  fun i j => if i.val = r ∧ j.val = c then some p else b i j

/-- Board one rook-move away from a back-rank mate: black king h8 cornered by
the white king, white rook ready to swing to a8. -/
def mateInOneBoard : Board :=
  placeP (placeP (placeP emptyB 0 7 ⟨.king, .black⟩) 2 6 ⟨.king, .white⟩)
    7 0 ⟨.rook, .white⟩

def mateInOneState : GameState :=
  { createGameState with board := mateInOneBoard }

def fourPlayers : List Player := [⟨100, 0⟩, ⟨101, 1⟩, ⟨102, 2⟩, ⟨103, 3⟩]

def startedRoom (b0 b1 : GameState) (banks : Nat → List Piece) : Room :=
  { players := fourPlayers, gameStarted := true, boards := (b0, b1),
    pieceBanks := banks }

def roomC1 : Room := startedRoom mateInOneState createGameState (fun _ => [])

/-- Seat 0 mates on board 0. -/
def roomC1a : Room × List SEvent := handleMakeMove roomC1 100 0 (7, 0) (0, 0) none

/-- Seat 2 then moves on board 1. -/
def roomC1b : Room × List SEvent :=
  handleMakeMove roomC1a.1 102 1 (6, 4) (4, 4) none

def roomC2 : Room := startedRoom createGameState createGameState (fun _ => [])

def roomC2a : Room × List SEvent := handleMakeMove roomC2 100 0 (6, 4) (4, 4) none

def roomC2b : Room × List SEvent :=
  handleMakeMove roomC2a.1 101 0 (1, 3) (3, 3) none

/-- Seat 0's pawn captures the black pawn on (3,3). -/
def roomC2c : Room × List SEvent :=
  handleMakeMove roomC2b.1 100 0 (4, 4) (3, 3) none

/-- White pawn one step from promotion. -/
def promoBoard : Board :=
  placeP (placeP (placeP emptyB 1 0 ⟨.pawn, .white⟩) 7 4 ⟨.king, .white⟩)
    0 7 ⟨.king, .black⟩

def promoState : GameState := { createGameState with board := promoBoard }

/-- Both original white rooks at home, an extra white rook mid-board on
column 0. -/
def rightsBoard : Board :=
  placeP (placeP (placeP (placeP (placeP emptyB 7 4 ⟨.king, .white⟩)
    7 0 ⟨.rook, .white⟩) 7 7 ⟨.rook, .white⟩) 4 0 ⟨.rook, .white⟩)
    0 4 ⟨.king, .black⟩

def rightsState : GameState := { createGameState with board := rightsBoard }

/-- White king on (3,7) checked through column 7 once the blocking knight on
(0,7) is replaced; drops onto (0,7) violate all three drop gates at once. -/
def gateBoard : Board :=
  placeP (placeP (placeP (placeP emptyB 3 7 ⟨.king, .white⟩)
    7 7 ⟨.rook, .black⟩) 0 7 ⟨.knight, .black⟩) 5 0 ⟨.king, .black⟩

def gateState : GameState := { createGameState with board := gateBoard }

/-- Lone black king in the corner; dropping a white queen on (1,2)
stalemates black. -/
def staleBoard : Board :=
  placeP (placeP emptyB 0 0 ⟨.king, .black⟩) 7 7 ⟨.king, .white⟩

def staleState : GameState :=
  { createGameState with
    board := staleBoard
    castlingRights := ⟨⟨false, false⟩, ⟨false, false⟩⟩ }

def roomC7 : Room :=
  startedRoom staleState createGameState
    (fun j => if j = 0 then [⟨.queen, .white⟩] else [])

def roomC7a : Room × List SEvent := handleDropPiece roomC7 100 .queen 1 2

def roomC7aH : Room × List SEvent := handleDropPieceH roomC7 100 .queen 1 2

/-- Kingless state for the C10 witness. -/
def kinglessState : GameState := { createGameState with board := emptyB }

/-! ### Counting pieces (for conservation statements) -/

/-- Weight of a cell toward the count of the exact piece `p`. -/
def wC (v : Option Piece) (p : Piece) : ℕ := if v = some p then 1 else 0

/-- Weight of a cell toward the count of the piece type `ty` (color ignored). -/
def wT (v : Option Piece) (ty : PieceType) : ℕ :=
  match v with
  | some q => if q.type = ty then 1 else 0
  | none => 0

/-- Number of cells of `b` holding exactly the piece `p`. -/
def cntC (b : Board) (p : Piece) : ℕ := ∑ sq : Fin 8 × Fin 8, wC (b sq.1 sq.2) p

/-- Number of cells of `b` holding a piece of type `ty` (either color). -/
def cntT (b : Board) (ty : PieceType) : ℕ := ∑ sq : Fin 8 × Fin 8, wT (b sq.1 sq.2) ty

def bankCntT (l : List Piece) (ty : PieceType) : ℕ :=
  l.countP fun q => q.type == ty

/-- Count of the exact `(color, type)` pair `p` over both boards and all four
banks of a room. -/
def totalCntC (room : Room) (p : Piece) : ℕ :=
  cntC room.boards.1.board p + cntC room.boards.2.board p +
    (room.pieceBanks 0).count p + (room.pieceBanks 1).count p +
    (room.pieceBanks 2).count p + (room.pieceBanks 3).count p

/-- Count of the piece type `ty` (color ignored) over both boards and all
four banks of a room. -/
def totalCntT (room : Room) (ty : PieceType) : ℕ :=
  cntT room.boards.1.board ty + cntT room.boards.2.board ty +
    bankCntT (room.pieceBanks 0) ty + bankCntT (room.pieceBanks 1) ty +
    bankCntT (room.pieceBanks 2) ty + bankCntT (room.pieceBanks 3) ty

/-- State with the four check/terminal flags replaced. -/
def withFlags (s : GameState) (c m st : Bool) (w : Option Color) : GameState :=
  { s with isCheck := c, isCheckmate := m, isStalemate := st, winner := w }

/-! ### Claim C1 -/

/-- C1 counterexample: in a session room whose board 0 has just reached
checkmate (announced with the mover's team as winner), a subsequent
`makeMove` on the sibling board 1 is still accepted and applied — it is not
rejected, contradicting the claim that no further moves are accepted on
either board once `isCheckmate` is set. -/
theorem C1_counterexample :
    roomC1a.1.boards.1.isCheckmate = true ∧
    roomC1a.2 = [SEvent.gameStateB,
      SEvent.gameOver (some "A") "checkmate" 0] ∧
    roomC1b.2 = [SEvent.gameStateB] ∧
    roomC1b.1.boards.2.turn = Color.black ∧
    at? roomC1b.1.boards.2.board 4 4 = some ⟨.pawn, .white⟩ := by
  refine ⟨by decide, by decide, by decide, by decide, by decide⟩

/-- C1 (amended): setting `isCheckmate` (or any of the check/terminal flags)
on a `BoardState` does not gate the engine: `makeMove` and `dropPiece`
results are entirely independent of those four flags, so the session keeps
accepting legal moves and drops on both boards after a checkmate; only the
`gameOver` broadcast (with the mover's team as winner) marks the end. -/
theorem C1_terminal_flags_do_not_gate :
    ∀ (s : GameState) (c m st : Bool) (w : Option Color) (fr fc tr tc : Int)
      (pr : Option PieceType) (pt : PieceType) (dr dc : Int) (col : Color),
      makeMove (withFlags s c m st w) fr fc tr tc pr =
        makeMove s fr fc tr tc pr ∧
      dropPiece (withFlags s c m st w) pt dr dc col =
        dropPiece s pt dr dc col := by
  intro s c m st w fr fc tr tc pr pt dr dc col
  cases s
  exact ⟨rfl, rfl⟩

/-! ### Claim C9 -/

/-- C9 (confirmed): `getLegalMoves` never consults the side to move — its
result is unchanged under an arbitrary replacement of `turn`, so the query
exposes either color's legal destinations at any time. -/
theorem C9_legal_moves_ignore_turn :
    ∀ (gs : GameState) (t : Color) (row col : Int),
      getLegalMoves { gs with turn := t } row col = getLegalMoves gs row col := by
  intro gs t row col
  cases gs
  rfl

/-! ### Claim C2, counterexample -/

/-- C2 counterexample: a three-move session prefix (all accepted) in which
white's pawn captures a black pawn; the captured piece enters seat 2's bank
recolored white under `src/server/index.js`'s same-color teammate mapping, so
the `(color, type)` multiset over both boards and all four banks changes
without any promotion: black pawns drop from 16 to 15, white pawns rise
from 16 to 17. -/
theorem C2_counterexample :
    roomC2a.2 = [SEvent.gameStateB] ∧
    roomC2b.2 = [SEvent.gameStateB] ∧
    roomC2c.2 = [SEvent.gameStateB] ∧
    totalCntC roomC2 ⟨.pawn, .black⟩ = 16 ∧
    totalCntC roomC2 ⟨.pawn, .white⟩ = 16 ∧
    totalCntC roomC2c.1 ⟨.pawn, .black⟩ = 15 ∧
    totalCntC roomC2c.1 ⟨.pawn, .white⟩ = 17 := by
  refine ⟨by decide, by decide, by decide, by decide, by decide, by decide,
    by decide⟩
theorem mem_getPawnMoves {b : Board} {r c : Int} {color : Color}
    {ep : Option (Int × Int)} {m : MoveC}
    (h : m ∈ getPawnMoves b r c color ep) :
    m.castling = none ∧ isValidPosition m.toRow m.toCol = true ∧ m.toRow ≠ r ∧
    (m.enPassant = true →
      ep = some (m.toRow, m.toCol) ∧ m.toCol ≠ c ∧
      m.toRow = r + (if color = Color.white then -1 else 1)) ∧
    ((m.toRow - r).natAbs = 2 →
      m.enPassant = false ∧ m.toCol = c ∧
      r = (if color = Color.white then (6 : Int) else 1) ∧
      at? b (r + (if color = Color.white then -1 else 1)) c = none ∧
      m.toRow = r + 2 * (if color = Color.white then -1 else 1)) := by
  cases color
  · simp [getPawnMoves] at h
    rcases h with ⟨⟨hv, he⟩, rfl | ⟨⟨hr0, hd⟩, rfl⟩⟩ | ⟨hv, hcap | hep⟩ |
      ⟨hv, hcap | hep⟩
    · have hv' := isValidPosition_iff.mp hv
      exact ⟨rfl, hv, by show (r + -1 : Int) ≠ r; omega,
        by intro hx; simp at hx,
        fun hx => absurd (show ((r + -1 - r : Int)).natAbs = 2 from hx)
          (by omega)⟩
    · have hv' := isValidPosition_iff.mp hv
      refine ⟨rfl, ?_, by show (r + -2 : Int) ≠ r; omega,
        by intro hx; simp at hx, ?_⟩
      · show isValidPosition (r + -2) c = true
        exact isValidPosition_iff.mpr (by omega)
      · intro _
        exact ⟨rfl, rfl, hr0, he, by show (r + -2 : Int) = r + 2 * -1; ring⟩
    · split at hcap
      · split at hcap
        · simp at hcap
        · simp at hcap
          subst hcap
          have hv' := isValidPosition_iff.mp hv
          exact ⟨rfl, hv, by show (r + -1 : Int) ≠ r; omega,
            by intro hx; simp at hx,
            fun hx => absurd (show ((r + -1 - r : Int)).natAbs = 2 from hx)
              (by omega)⟩
      · simp at hcap
    · split at hep
      · split at hep
        · next hcnd =>
          simp at hep
          subst hep
          have hv' := isValidPosition_iff.mp hv
          refine ⟨rfl, hv, by show (r + -1 : Int) ≠ r; omega, ?_,
            fun hx => absurd (show ((r + -1 - r : Int)).natAbs = 2 from hx)
              (by omega)⟩
          intro _
          exact ⟨congrArg some (Prod.ext hcnd.1 hcnd.2),
            by show (c + -1 : Int) ≠ c; omega, rfl⟩
        · simp at hep
      · simp at hep
    · split at hcap
      · split at hcap
        · simp at hcap
        · simp at hcap
          subst hcap
          have hv' := isValidPosition_iff.mp hv
          exact ⟨rfl, hv, by show (r + -1 : Int) ≠ r; omega,
            by intro hx; simp at hx,
            fun hx => absurd (show ((r + -1 - r : Int)).natAbs = 2 from hx)
              (by omega)⟩
      · simp at hcap
    · split at hep
      · split at hep
        · next hcnd =>
          simp at hep
          subst hep
          have hv' := isValidPosition_iff.mp hv
          refine ⟨rfl, hv, by show (r + -1 : Int) ≠ r; omega, ?_,
            fun hx => absurd (show ((r + -1 - r : Int)).natAbs = 2 from hx)
              (by omega)⟩
          intro _
          exact ⟨congrArg some (Prod.ext hcnd.1 hcnd.2),
            by show (c + 1 : Int) ≠ c; omega, rfl⟩
        · simp at hep
      · simp at hep
  · simp [getPawnMoves] at h
    rcases h with ⟨⟨hv, he⟩, rfl | ⟨⟨hr0, hd⟩, rfl⟩⟩ | ⟨hv, hcap | hep⟩ |
      ⟨hv, hcap | hep⟩
    · have hv' := isValidPosition_iff.mp hv
      exact ⟨rfl, hv, by show (r + 1 : Int) ≠ r; omega,
        by intro hx; simp at hx,
        fun hx => absurd (show ((r + 1 - r : Int)).natAbs = 2 from hx)
          (by omega)⟩
    · have hv' := isValidPosition_iff.mp hv
      refine ⟨rfl, ?_, by show (r + 2 : Int) ≠ r; omega,
        by intro hx; simp at hx, ?_⟩
      · show isValidPosition (r + 2) c = true
        exact isValidPosition_iff.mpr (by omega)
      · intro _
        exact ⟨rfl, rfl, hr0, he, by show (r + 2 : Int) = r + 2 * 1; ring⟩
    · split at hcap
      · split at hcap
        · simp at hcap
        · simp at hcap
          subst hcap
          have hv' := isValidPosition_iff.mp hv
          exact ⟨rfl, hv, by show (r + 1 : Int) ≠ r; omega,
            by intro hx; simp at hx,
            fun hx => absurd (show ((r + 1 - r : Int)).natAbs = 2 from hx)
              (by omega)⟩
      · simp at hcap
    · split at hep
      · split at hep
        · next hcnd =>
          simp at hep
          subst hep
          have hv' := isValidPosition_iff.mp hv
          refine ⟨rfl, hv, by show (r + 1 : Int) ≠ r; omega, ?_,
            fun hx => absurd (show ((r + 1 - r : Int)).natAbs = 2 from hx)
              (by omega)⟩
          intro _
          exact ⟨congrArg some (Prod.ext hcnd.1 hcnd.2),
            by show (c + -1 : Int) ≠ c; omega, rfl⟩
        · simp at hep
      · simp at hep
    · split at hcap
      · split at hcap
        · simp at hcap
        · simp at hcap
          subst hcap
          have hv' := isValidPosition_iff.mp hv
          exact ⟨rfl, hv, by show (r + 1 : Int) ≠ r; omega,
            by intro hx; simp at hx,
            fun hx => absurd (show ((r + 1 - r : Int)).natAbs = 2 from hx)
              (by omega)⟩
      · simp at hcap
    · split at hep
      · split at hep
        · next hcnd =>
          simp at hep
          subst hep
          have hv' := isValidPosition_iff.mp hv
          refine ⟨rfl, hv, by show (r + 1 : Int) ≠ r; omega, ?_,
            fun hx => absurd (show ((r + 1 - r : Int)).natAbs = 2 from hx)
              (by omega)⟩
          intro _
          exact ⟨congrArg some (Prod.ext hcnd.1 hcnd.2),
            by show (c + 1 : Int) ≠ c; omega, rfl⟩
        · simp at hep
      · simp at hep

theorem mem_rayMoves {b : Board} {color : Color} {dr dc : Int} :
    ∀ {r c : Int} {fuel : Nat} {m : MoveC}, m ∈ rayMoves b color dr dc r c fuel →
      m.castling = none ∧ m.enPassant = false ∧
        isValidPosition m.toRow m.toCol = true := by
  intro r c fuel
  induction fuel generalizing r c with
  | zero => intro m h; simp [rayMoves] at h
  | succ n ih =>
    intro m h
    simp only [rayMoves] at h
    split at h
    · next hval =>
      split at h
      · next hat =>
        rcases List.mem_cons.mp h with rfl | h'
        · exact ⟨rfl, rfl, hval⟩
        · exact ih h'
      · next p hat =>
        split at h
        · simp at h
          subst h
          exact ⟨rfl, rfl, hval⟩
        · simp at h
    · simp at h

theorem mem_getRookMoves {b : Board} {r c : Int} {color : Color} {m : MoveC}
    (h : m ∈ getRookMoves b r c color) :
    m.castling = none ∧ m.enPassant = false ∧
      isValidPosition m.toRow m.toCol = true := by
  simp only [getRookMoves, List.mem_flatMap] at h
  rcases h with ⟨od, _, hm⟩
  exact mem_rayMoves hm

theorem mem_getBishopMoves {b : Board} {r c : Int} {color : Color} {m : MoveC}
    (h : m ∈ getBishopMoves b r c color) :
    m.castling = none ∧ m.enPassant = false ∧
      isValidPosition m.toRow m.toCol = true := by
  simp only [getBishopMoves, List.mem_flatMap] at h
  rcases h with ⟨od, _, hm⟩
  exact mem_rayMoves hm

theorem mem_getQueenMoves {b : Board} {r c : Int} {color : Color} {m : MoveC}
    (h : m ∈ getQueenMoves b r c color) :
    m.castling = none ∧ m.enPassant = false ∧
      isValidPosition m.toRow m.toCol = true := by
  rcases List.mem_append.mp h with h | h
  · exact mem_getRookMoves h
  · exact mem_getBishopMoves h

theorem mem_getKnightMoves {b : Board} {r c : Int} {color : Color} {m : MoveC}
    (h : m ∈ getKnightMoves b r c color) :
    m.castling = none ∧ m.enPassant = false ∧
      isValidPosition m.toRow m.toCol = true := by
  simp only [getKnightMoves, List.mem_filterMap] at h
  rcases h with ⟨od, _, hm⟩
  split at hm
  · next hval =>
    split at hm
    · split at hm
      · simp at hm
        subst hm
        exact ⟨rfl, rfl, hval⟩
      · simp at hm
    · simp at hm
      subst hm
      exact ⟨rfl, rfl, hval⟩
  · simp at hm

theorem mem_getKingMoves {b : Board} {r c : Int} {color : Color}
    {cr : CastlingRights} {m : MoveC} (h : m ∈ getKingMoves b r c color cr) :
    m.enPassant = false ∧
    (m.castling = none → isValidPosition m.toRow m.toCol = true) ∧
    (m.castling = some CastleSide.kingSide →
      m.toRow = r ∧ m.toCol = 6 ∧ at? b r 5 = none ∧ at? b r 6 = none) ∧
    (m.castling = some CastleSide.queenSide →
      m.toRow = r ∧ m.toCol = 2 ∧ at? b r 1 = none ∧ at? b r 2 = none ∧
        at? b r 3 = none) := by
  simp only [getKingMoves] at h
  rcases List.mem_append.mp h with h | h
  · simp only [List.mem_filterMap] at h
    rcases h with ⟨od, _, hm⟩
    split at hm
    · next hval =>
      split at hm
      · split at hm
        · simp at hm
          subst hm
          exact ⟨rfl, fun _ => hval, by simp, by simp⟩
        · simp at hm
      · simp at hm
        subst hm
        exact ⟨rfl, fun _ => hval, by simp, by simp⟩
    · simp at hm
  · split at h
    · rcases List.mem_append.mp h with h | h
      · split at h
        · next hg =>
          simp at h
          subst h
          exact ⟨rfl, by simp, fun _ => ⟨rfl, rfl, hg.2.1, hg.2.2.1⟩, by simp⟩
        · simp at h
      · split at h
        · next hg =>
          simp at h
          subst h
          exact ⟨rfl, by simp, by simp,
            fun _ => ⟨rfl, rfl, hg.2.1, hg.2.2.1, hg.2.2.2.1⟩⟩
        · simp at h
    · simp at h

/-- Facts about any pseudo-legal candidate, extracted from the generators. -/
structure PseudoFacts (gs : GameState) (piece : Piece) (r c : Int)
    (m : MoveC) : Prop where
  valid : isValidPosition m.toRow m.toCol = true
  ep_pawn : m.enPassant = true → piece.type = PieceType.pawn
  ep_target : m.enPassant = true →
    gs.enPassantTarget = some (m.toRow, m.toCol)
  ep_col : m.enPassant = true → m.toCol ≠ c
  ep_row : m.enPassant = true →
    m.toRow = r + (if piece.color = Color.white then -1 else 1)
  pawn_row : piece.type = PieceType.pawn → m.toRow ≠ r
  castle_none : piece.type ≠ PieceType.king → m.castling = none
  castle_k : m.castling = some CastleSide.kingSide →
    m.enPassant = false ∧ m.toRow = r ∧ m.toCol = 6 ∧
      at? gs.board r 5 = none ∧ at? gs.board r 6 = none
  castle_q : m.castling = some CastleSide.queenSide →
    m.enPassant = false ∧ m.toRow = r ∧ m.toCol = 2 ∧
      at? gs.board r 1 = none ∧ at? gs.board r 2 = none ∧
      at? gs.board r 3 = none
  dbl : piece.type = PieceType.pawn → (m.toRow - r).natAbs = 2 →
    m.enPassant = false ∧ m.toCol = c ∧
    r = (if piece.color = Color.white then (6 : Int) else 1) ∧
    at? gs.board (r + (if piece.color = Color.white then -1 else 1)) c = none ∧
    m.toRow = r + 2 * (if piece.color = Color.white then -1 else 1)

theorem pseudo_facts {gs : GameState} {piece : Piece} {r c : Int} {m : MoveC}
    (hp : at? gs.board r c = some piece)
    (h : m ∈ getPseudoLegalMoves gs r c) : PseudoFacts gs piece r c m := by
  have hvrc' := isValidPosition_iff.mp (at?_some_valid hp)
  unfold getPseudoLegalMoves at h
  rw [hp] at h
  obtain ⟨pty, pcol⟩ := piece
  cases pty
  case king =>
    obtain ⟨hep, hval, hck, hcq⟩ := mem_getKingMoves h
    refine ⟨?_, ?_, ?_, ?_, ?_, ?_, ?_,
      fun hcn => ⟨hep, hck hcn⟩, fun hcn => ⟨hep, hcq hcn⟩, ?_⟩
    · rcases hcn : m.castling with _ | side
      · exact hval hcn
      · cases side
        · obtain ⟨h1, h2, _⟩ := hck hcn
          rw [h1, h2]
          exact isValidPosition_iff.mpr (by omega)
        · obtain ⟨h1, h2, _⟩ := hcq hcn
          rw [h1, h2]
          exact isValidPosition_iff.mpr (by omega)
    · intro hx; rw [hep] at hx; exact absurd hx (by decide)
    · intro hx; rw [hep] at hx; exact absurd hx (by decide)
    · intro hx; rw [hep] at hx; exact absurd hx (by decide)
    · intro hx; rw [hep] at hx; exact absurd hx (by decide)
    · intro hx; exact absurd hx (by simp)
    · intro hx; exact absurd rfl hx
    · intro hx; exact absurd hx (by simp)
  case pawn =>
    obtain ⟨hcn, hval, hrow, heps, hdbl⟩ := mem_getPawnMoves h
    refine ⟨hval, fun _ => rfl, fun hx => (heps hx).1, fun hx => (heps hx).2.1,
      fun hx => (heps hx).2.2, fun _ => hrow, fun _ => hcn, ?_, ?_, ?_⟩
    · intro hx; rw [hcn] at hx; exact absurd hx (by simp)
    · intro hx; rw [hcn] at hx; exact absurd hx (by simp)
    · intro _ hx
      exact hdbl hx
  case rook =>
    obtain ⟨hcn, hep, hval⟩ := mem_getRookMoves h
    exact ⟨hval, fun hx => absurd (hep ▸ hx) (by decide),
      fun hx => absurd (hep ▸ hx) (by decide),
      fun hx => absurd (hep ▸ hx) (by decide),
      fun hx => absurd (hep ▸ hx) (by decide),
      fun hx => absurd hx (by simp), fun _ => hcn,
      fun hx => absurd (hcn ▸ hx) (by simp),
      fun hx => absurd (hcn ▸ hx) (by simp),
      fun hx => absurd hx (by simp)⟩
  case bishop =>
    obtain ⟨hcn, hep, hval⟩ := mem_getBishopMoves h
    exact ⟨hval, fun hx => absurd (hep ▸ hx) (by decide),
      fun hx => absurd (hep ▸ hx) (by decide),
      fun hx => absurd (hep ▸ hx) (by decide),
      fun hx => absurd (hep ▸ hx) (by decide),
      fun hx => absurd hx (by simp), fun _ => hcn,
      fun hx => absurd (hcn ▸ hx) (by simp),
      fun hx => absurd (hcn ▸ hx) (by simp),
      fun hx => absurd hx (by simp)⟩
  case knight =>
    obtain ⟨hcn, hep, hval⟩ := mem_getKnightMoves h
    exact ⟨hval, fun hx => absurd (hep ▸ hx) (by decide),
      fun hx => absurd (hep ▸ hx) (by decide),
      fun hx => absurd (hep ▸ hx) (by decide),
      fun hx => absurd (hep ▸ hx) (by decide),
      fun hx => absurd hx (by simp), fun _ => hcn,
      fun hx => absurd (hcn ▸ hx) (by simp),
      fun hx => absurd (hcn ▸ hx) (by simp),
      fun hx => absurd hx (by simp)⟩
  case queen =>
    obtain ⟨hcn, hep, hval⟩ := mem_getQueenMoves h
    exact ⟨hval, fun hx => absurd (hep ▸ hx) (by decide),
      fun hx => absurd (hep ▸ hx) (by decide),
      fun hx => absurd (hep ▸ hx) (by decide),
      fun hx => absurd (hep ▸ hx) (by decide),
      fun hx => absurd hx (by simp), fun _ => hcn,
      fun hx => absurd (hcn ▸ hx) (by simp),
      fun hx => absurd (hcn ▸ hx) (by simp),
      fun hx => absurd hx (by simp)⟩

theorem mem_legal_pseudo {gs : GameState} {r c : Int} {m : MoveC}
    (h : m ∈ getLegalMoves gs r c) : m ∈ getPseudoLegalMoves gs r c := by
  unfold getLegalMoves at h
  split at h
  · exact absurd h (List.not_mem_nil _)
  · exact (List.mem_filter.mp h).1

theorem legal_facts {gs : GameState} {piece : Piece} {r c : Int} {m : MoveC}
    (hp : at? gs.board r c = some piece)
    (h : m ∈ getLegalMoves gs r c) : PseudoFacts gs piece r c m :=
  pseudo_facts hp (mem_legal_pseudo h)

theorem recomputeTerminal_board (g : GameState) (m : Color) :
    (recomputeTerminal g m).board = g.board := by
  simp only [recomputeTerminal]
  split
  · rfl
  split <;> rfl

theorem recomputeTerminal_castlingRights (g : GameState) (m : Color) :
    (recomputeTerminal g m).castlingRights = g.castlingRights := by
  simp only [recomputeTerminal]
  split
  · rfl
  split <;> rfl

theorem recomputeTerminal_enPassantTarget (g : GameState) (m : Color) :
    (recomputeTerminal g m).enPassantTarget = g.enPassantTarget := by
  simp only [recomputeTerminal]
  split
  · rfl
  split <;> rfl

theorem makeMove_ok_inv {s : GameState} {fr fc tr tc : Int}
    {pr : Option PieceType} {s' : GameState} {cap : Option Piece}
    (h : makeMove s fr fc tr tc pr = .ok s' cap) :
    ∃ piece m, at? s.board fr fc = some piece ∧ piece.color = s.turn ∧
      m ∈ getLegalMoves s fr fc ∧ m.toRow = tr ∧ m.toCol = tc ∧
      s' = succState s piece m fr fc tr tc pr ∧
      cap = capturedOfMove s.board piece m tr tc := by
  unfold makeMove at h
  split at h
  · exact absurd h (by simp)
  next piece hp =>
    split at h
    · exact absurd h (by simp)
    next hcol =>
      split at h
      · exact absurd h (by simp)
      next m hfind =>
        have hmem := List.mem_of_find?_eq_some hfind
        have hpred := List.find?_some hfind
        simp only [Bool.and_eq_true, beq_iff_eq] at hpred
        injection h with h1 h2
        exact ⟨piece, m, hp, not_not.mp hcol, hmem, hpred.1, hpred.2,
          h1.symm, h2.symm⟩

theorem succState_board (s : GameState) (piece : Piece) (m : MoveC)
    (fr fc tr tc : Int) (pr : Option PieceType) :
    (succState s piece m fr fc tr tc pr).board =
      newBoardOfMove s.board piece m fr fc tr tc pr :=
  recomputeTerminal_board _ _

theorem succState_castlingRights (s : GameState) (piece : Piece) (m : MoveC)
    (fr fc tr tc : Int) (pr : Option PieceType) :
    (succState s piece m fr fc tr tc pr).castlingRights =
      updateCastlingRights s.castlingRights piece fc tc
        (capturedOfMove s.board piece m tr tc) :=
  recomputeTerminal_castlingRights _ _

theorem succState_enPassantTarget (s : GameState) (piece : Piece) (m : MoveC)
    (fr fc tr tc : Int) (pr : Option PieceType) :
    (succState s piece m fr fc tr tc pr).enPassantTarget =
      newEpTarget piece fr fc tr :=
  recomputeTerminal_enPassantTarget _ _

theorem cntT_setB (b : Board) {r c : Int} (v : Option Piece) (ty : PieceType)
    (h : isValidPosition r c = true) :
    cntT (setB b r c v) ty + wT (at? b r c) ty = cntT b ty + wT v ty := by
  rcases isValidPosition_iff.mp h with ⟨h1, h2, h3, h4⟩
  have hr8 : r.toNat < 8 := by omega
  have hc8 : c.toNat < 8 := by omega
  set p0 : Fin 8 × Fin 8 := (⟨r.toNat, hr8⟩, ⟨c.toNat, hc8⟩) with hp0
  have hmem : p0 ∈ (Finset.univ : Finset (Fin 8 × Fin 8)) := Finset.mem_univ _
  have hval : setB b r c v p0.1 p0.2 = v := by
    simp only [setB, hp0]
    rw [if_pos]
    exact ⟨by simp; omega, by simp; omega⟩
  have hold : at? b r c = b p0.1 p0.2 := by
    simp only [at?, hp0]
    rw [dif_pos (by omega)]
  have hoff : ∀ p : Fin 8 × Fin 8, p ≠ p0 →
      setB b r c v p.1 p.2 = b p.1 p.2 := by
    intro p hne
    simp only [setB]
    rw [if_neg]
    intro ⟨ha, hb⟩
    apply hne
    apply Prod.ext
    · apply Fin.ext
      simp only [hp0]
      omega
    · apply Fin.ext
      simp only [hp0]
      omega
  have hS : ∑ x ∈ Finset.univ.erase p0, wT (setB b r c v x.1 x.2) ty =
      ∑ x ∈ Finset.univ.erase p0, wT (b x.1 x.2) ty :=
    Finset.sum_congr rfl fun p hp => by
      rw [hoff p (Finset.ne_of_mem_erase hp)]
  unfold cntT
  rw [← Finset.add_sum_erase _ _ hmem,
    ← Finset.add_sum_erase _ (fun p => wT (b p.1 p.2) ty) hmem,
    hval, hold, hS]
  omega

/-- `enPassantTarget`, when set, points at an empty square. -/
def epOK (s : GameState) : Prop :=
  match s.enPassantTarget with
  | none => True
  | some t => at? s.board t.1 t.2 = none

instance (s : GameState) : Decidable (epOK s) := by
  unfold epOK
  split <;> infer_instance

theorem makeMove_cntT {s : GameState} {fr fc tr tc : Int}
    {pr : Option PieceType} {s' : GameState} {cap : Option Piece}
    {piece : Piece} (ty : PieceType) (hep : epOK s)
    (hp : at? s.board fr fc = some piece)
    (h : makeMove s fr fc tr tc pr = .ok s' cap) :
    cntT s'.board ty + wT cap ty +
      (if piece.type = PieceType.pawn ∧
          tr = (if piece.color = Color.white then (0 : Int) else 7) ∧
          ty = PieceType.pawn then 1 else 0) =
    cntT s.board ty +
      (if piece.type = PieceType.pawn ∧
          tr = (if piece.color = Color.white then (0 : Int) else 7) ∧
          ty = pr.getD PieceType.queen then 1 else 0) := by
  obtain ⟨piece', m, hp', hcol, hmem, hm1, hm2, hs', hcapEq⟩ := makeMove_ok_inv h
  rw [hp] at hp'
  injection hp' with hpe
  subst hpe
  subst hm1
  subst hm2
  have F := legal_facts hp hmem
  have hvfrfc := isValidPosition_iff.mp (at?_some_valid hp)
  have hvto := isValidPosition_iff.mp F.valid
  have hb' : s'.board =
      newBoardOfMove s.board piece m fr fc m.toRow m.toCol pr := by
    rw [hs', succState_board]
  rw [hb', hcapEq]
  clear hb' hcapEq hs' h
  by_cases hE : m.enPassant = true
  · -- en passant capture
    have hpt : piece.type = PieceType.pawn := F.ep_pawn hE
    have hcn : m.castling = none := F.castle_none (by rw [hpt]; decide)
    have htr_ne_fr : m.toRow ≠ fr := F.pawn_row hpt
    have htc_ne_fc : m.toCol ≠ fc := F.ep_col hE
    have hepRow : epRow piece.color m.toRow = fr := by
      have hrow := F.ep_row hE
      by_cases hw : piece.color = Color.white <;>
        simp only [epRow, hw, if_pos, if_neg, if_true, if_false] at hrow ⊢ <;>
        omega
    have hepTgt : at? s.board m.toRow m.toCol = none := by
      have := F.ep_target hE
      unfold epOK at hep
      rw [this] at hep
      exact hep
    have hvfrtc : isValidPosition fr m.toCol = true :=
      isValidPosition_iff.mpr (by omega)
    have hvfr : isValidPosition fr fc = true := at?_some_valid hp
    have hcapV : capturedOfMove s.board piece m m.toRow m.toCol =
        at? s.board fr m.toCol := by
      unfold capturedOfMove
      rw [if_pos hE, hepRow]
    have hat1 : at? (setB s.board fr m.toCol none) m.toRow m.toCol = none := by
      rw [at?_setB_ne _ _ (Or.inl htr_ne_fr), hepTgt]
    have hat2 : at? (setB (setB s.board fr m.toCol none) m.toRow m.toCol
        (some piece)) fr fc = some piece := by
      rw [at?_setB_ne _ _ (Or.inl (Ne.symm htr_ne_fr)),
        at?_setB_ne _ _ (Or.inr (Ne.symm htc_ne_fc)), hp]
    have E1 : cntT (setB s.board fr m.toCol none) ty +
        wT (at? s.board fr m.toCol) ty = cntT s.board ty + wT none ty :=
      cntT_setB _ _ _ hvfrtc
    have E2 : cntT (setB (setB s.board fr m.toCol none) m.toRow m.toCol
          (some piece)) ty +
        wT (at? (setB s.board fr m.toCol none) m.toRow m.toCol) ty =
        cntT (setB s.board fr m.toCol none) ty + wT (some piece) ty :=
      cntT_setB _ _ _ F.valid
    rw [hat1] at E2
    have E3 : cntT (setB (setB (setB s.board fr m.toCol none) m.toRow m.toCol
          (some piece)) fr fc none) ty +
        wT (at? (setB (setB s.board fr m.toCol none) m.toRow m.toCol
          (some piece)) fr fc) ty =
        cntT (setB (setB s.board fr m.toCol none) m.toRow m.toCol
          (some piece)) ty + wT none ty :=
      cntT_setB _ _ _ hvfr
    rw [hat2] at E3
    have hPw : wT (some piece) ty = (if ty = PieceType.pawn then 1 else 0) := by
      simp [wT, hpt, eq_comm]
    by_cases hP : m.toRow = (if piece.color = Color.white then (0 : Int) else 7)
    · have hifL : (if piece.type = PieceType.pawn ∧
          m.toRow = (if piece.color = Color.white then (0 : Int) else 7) ∧
          ty = PieceType.pawn then 1 else 0) =
          (if ty = PieceType.pawn then 1 else 0) := by
        simp [hpt, hP]
      have hifR : (if piece.type = PieceType.pawn ∧
          m.toRow = (if piece.color = Color.white then (0 : Int) else 7) ∧
          ty = pr.getD PieceType.queen then 1 else 0) =
          (if ty = pr.getD PieceType.queen then 1 else 0) := by
        simp [hpt, hP]
      have hbV : newBoardOfMove s.board piece m fr fc m.toRow m.toCol pr =
          setB (setB (setB (setB s.board fr m.toCol none) m.toRow m.toCol
            (some piece)) fr fc none) m.toRow m.toCol
            (some { piece with type := pr.getD PieceType.queen }) := by
        have hPP : piece.type = PieceType.pawn ∧
            m.toRow = (if piece.color = Color.white then (0 : Int) else 7) :=
          ⟨hpt, hP⟩
        simp only [newBoardOfMove]
        rw [if_pos hE, hepRow, if_pos hPP, hcn]
        rw [at?_setB_ne _ _ (Or.inl htr_ne_fr),
          at?_setB_self _ _ F.valid]
        rfl
      rw [hbV, hcapV, hifL, hifR]
      have hat3 : at? (setB (setB (setB s.board fr m.toCol none) m.toRow
          m.toCol (some piece)) fr fc none) m.toRow m.toCol = some piece := by
        rw [at?_setB_ne _ _ (Or.inl htr_ne_fr), at?_setB_self _ _ F.valid]
      have E4 : cntT (setB (setB (setB (setB s.board fr m.toCol none) m.toRow
            m.toCol (some piece)) fr fc none) m.toRow m.toCol
            (some { piece with type := pr.getD PieceType.queen })) ty +
          wT (at? (setB (setB (setB s.board fr m.toCol none) m.toRow m.toCol
            (some piece)) fr fc none) m.toRow m.toCol) ty =
          cntT (setB (setB (setB s.board fr m.toCol none) m.toRow m.toCol
            (some piece)) fr fc none) ty +
          wT (some { piece with type := pr.getD PieceType.queen }) ty :=
        cntT_setB _ _ _ F.valid
      rw [hat3] at E4
      have hQw : wT (some { piece with type := pr.getD PieceType.queen }) ty =
          (if ty = pr.getD PieceType.queen then 1 else 0) := by
        simp [wT, eq_comm]
      rw [hPw] at E2 E3 E4
      rw [hQw] at E4
      simp only [show wT (none : Option Piece) ty = 0 from rfl] at E1 E2 E3
      omega
    · have hifL : (if piece.type = PieceType.pawn ∧
          m.toRow = (if piece.color = Color.white then (0 : Int) else 7) ∧
          ty = PieceType.pawn then 1 else 0) = 0 := by
        simp [hP]
      have hifR : (if piece.type = PieceType.pawn ∧
          m.toRow = (if piece.color = Color.white then (0 : Int) else 7) ∧
          ty = pr.getD PieceType.queen then 1 else 0) = 0 := by
        simp [hP]
      have hbV : newBoardOfMove s.board piece m fr fc m.toRow m.toCol pr =
          setB (setB (setB s.board fr m.toCol none) m.toRow m.toCol
            (some piece)) fr fc none := by
        simp only [newBoardOfMove]
        rw [if_pos hE, hepRow, if_neg (by intro hx; exact hP hx.2), hcn]
      rw [hbV, hcapV, hifL, hifR]
      rw [hPw] at E2 E3
      simp only [show wT (none : Option Piece) ty = 0 from rfl] at E1 E2 E3
      omega
  · -- no en passant
    have hE' : m.enPassant = false := by revert hE; cases m.enPassant <;> simp
    have hvfr : isValidPosition fr fc = true := at?_some_valid hp
    have hcapV : capturedOfMove s.board piece m m.toRow m.toCol =
        at? s.board m.toRow m.toCol := by
      unfold capturedOfMove
      rw [if_neg hE]
      rcases hat : at? s.board m.toRow m.toCol with _ | q <;> simp [hat]
    have hat2 : at? (setB s.board m.toRow m.toCol (some piece)) fr fc =
        some piece := by
      by_cases hq : fr = m.toRow ∧ fc = m.toCol
      · rw [hq.1, hq.2, at?_setB_self _ _ F.valid]
      · have hne : fr ≠ m.toRow ∨ fc ≠ m.toCol := by
          by_cases h1 : fr = m.toRow
          · exact Or.inr fun h2 => hq ⟨h1, h2⟩
          · exact Or.inl h1
        rw [at?_setB_ne _ _ hne, hp]
    have E2 : cntT (setB s.board m.toRow m.toCol (some piece)) ty +
        wT (at? s.board m.toRow m.toCol) ty =
        cntT s.board ty + wT (some piece) ty := cntT_setB _ _ _ F.valid
    have E3 : cntT (setB (setB s.board m.toRow m.toCol (some piece)) fr fc
          none) ty +
        wT (at? (setB s.board m.toRow m.toCol (some piece)) fr fc) ty =
        cntT (setB s.board m.toRow m.toCol (some piece)) ty + wT none ty :=
      cntT_setB _ _ _ hvfr
    rw [hat2] at E3
    have hPw : wT (some piece) ty =
        (if piece.type = ty then 1 else 0) := rfl
    rcases hcs : m.castling with _ | side
    · -- no castling
      by_cases hPP : piece.type = PieceType.pawn ∧
          m.toRow = (if piece.color = Color.white then (0 : Int) else 7)
      · have htr_ne_fr : m.toRow ≠ fr := F.pawn_row hPP.1
        have hifL : (if piece.type = PieceType.pawn ∧
            m.toRow = (if piece.color = Color.white then (0 : Int) else 7) ∧
            ty = PieceType.pawn then 1 else 0) =
            (if ty = PieceType.pawn then 1 else 0) := by
          simp [hPP.1, hPP.2]
        have hifR : (if piece.type = PieceType.pawn ∧
            m.toRow = (if piece.color = Color.white then (0 : Int) else 7) ∧
            ty = pr.getD PieceType.queen then 1 else 0) =
            (if ty = pr.getD PieceType.queen then 1 else 0) := by
          simp [hPP.1, hPP.2]
        have hbV : newBoardOfMove s.board piece m fr fc m.toRow m.toCol pr =
            setB (setB (setB s.board m.toRow m.toCol (some piece)) fr fc none)
              m.toRow m.toCol
              (some { piece with type := pr.getD PieceType.queen }) := by
          simp only [newBoardOfMove]
          rw [if_neg hE, if_pos hPP, hcs]
          rw [at?_setB_ne _ _ (Or.inl htr_ne_fr), at?_setB_self _ _ F.valid]
          rfl
        rw [hbV, hcapV, hifL, hifR]
        have hat3 : at? (setB (setB s.board m.toRow m.toCol (some piece)) fr fc
            none) m.toRow m.toCol = some piece := by
          rw [at?_setB_ne _ _ (Or.inl htr_ne_fr), at?_setB_self _ _ F.valid]
        have E4 : cntT (setB (setB (setB s.board m.toRow m.toCol (some piece))
              fr fc none) m.toRow m.toCol
              (some { piece with type := pr.getD PieceType.queen })) ty +
            wT (at? (setB (setB s.board m.toRow m.toCol (some piece)) fr fc
              none) m.toRow m.toCol) ty =
            cntT (setB (setB s.board m.toRow m.toCol (some piece)) fr fc
              none) ty +
            wT (some { piece with type := pr.getD PieceType.queen }) ty :=
          cntT_setB _ _ _ F.valid
        rw [hat3] at E4
        have hPw' : wT (some piece) ty = (if ty = PieceType.pawn then 1
            else 0) := by
          simp [wT, hPP.1, eq_comm]
        have hQw : wT (some { piece with type := pr.getD PieceType.queen })
            ty = (if ty = pr.getD PieceType.queen then 1 else 0) := by
          simp [wT, eq_comm]
        rw [hPw'] at E2 E3 E4
        rw [hQw] at E4
        simp only [show wT (none : Option Piece) ty = 0 from rfl] at E3
        omega
      · have hifL : (if piece.type = PieceType.pawn ∧
            m.toRow = (if piece.color = Color.white then (0 : Int) else 7) ∧
            ty = PieceType.pawn then 1 else 0) = 0 :=
          if_neg fun hx => hPP ⟨hx.1, hx.2.1⟩
        have hifR : (if piece.type = PieceType.pawn ∧
            m.toRow = (if piece.color = Color.white then (0 : Int) else 7) ∧
            ty = pr.getD PieceType.queen then 1 else 0) = 0 :=
          if_neg fun hx => hPP ⟨hx.1, hx.2.1⟩
        have hbV : newBoardOfMove s.board piece m fr fc m.toRow m.toCol pr =
            setB (setB s.board m.toRow m.toCol (some piece)) fr fc none := by
          simp only [newBoardOfMove]
          rw [if_neg hE, if_neg hPP, hcs]
        rw [hbV, hcapV, hifL, hifR]
        simp only [show wT (none : Option Piece) ty = 0 from rfl] at E3
        omega
    · -- castling
      have hpk : piece.type = PieceType.king := by
        by_contra hq
        rw [F.castle_none hq] at hcs
        exact absurd hcs (by simp)
      have hPP : ¬(piece.type = PieceType.pawn ∧
          m.toRow = (if piece.color = Color.white then (0 : Int) else 7)) := by
        intro hx
        rw [hpk] at hx
        exact absurd hx.1 (by decide)
      have hifL : (if piece.type = PieceType.pawn ∧
          m.toRow = (if piece.color = Color.white then (0 : Int) else 7) ∧
          ty = PieceType.pawn then 1 else 0) = 0 :=
        if_neg fun hx => hPP ⟨hx.1, hx.2.1⟩
      have hifR : (if piece.type = PieceType.pawn ∧
          m.toRow = (if piece.color = Color.white then (0 : Int) else 7) ∧
          ty = pr.getD PieceType.queen then 1 else 0) = 0 :=
        if_neg fun hx => hPP ⟨hx.1, hx.2.1⟩
      rw [hcapV, hifL, hifR]
      cases side
      · -- king side
        obtain ⟨-, hmr, hmc, hg5, hg6⟩ := F.castle_k hcs
        have hv5 : isValidPosition m.toRow 5 = true :=
          isValidPosition_iff.mpr (by omega)
        have hv7 : isValidPosition m.toRow 7 = true :=
          isValidPosition_iff.mpr (by omega)
        have h5 : at? (setB (setB s.board m.toRow m.toCol (some piece)) fr fc
            none) m.toRow 5 = none := by
          by_cases hq : fr = m.toRow ∧ fc = 5
          · rw [hq.1, hq.2, at?_setB_self _ _ hv5]
          · have hne : (m.toRow : Int) ≠ fr ∨ (5 : Int) ≠ fc := by
              by_cases h1 : fr = m.toRow
              · exact Or.inr fun h2 => hq ⟨h1, h2.symm⟩
              · exact Or.inl fun h2 => h1 h2.symm
            rw [at?_setB_ne _ _ hne,
              at?_setB_ne _ _ (Or.inr (by rw [hmc]; decide)), hmr, hg5]
        have hbV : newBoardOfMove s.board piece m fr fc m.toRow m.toCol pr =
            setB (setB (setB (setB s.board m.toRow m.toCol (some piece)) fr fc
              none) m.toRow 5
              (at? (setB (setB s.board m.toRow m.toCol (some piece)) fr fc
                none) m.toRow 7)) m.toRow 7 none := by
          simp only [newBoardOfMove]
          rw [if_neg hE, if_neg hPP, hcs]
        rw [hbV]
        have E4 : cntT (setB (setB (setB s.board m.toRow m.toCol (some piece))
              fr fc none) m.toRow 5
              (at? (setB (setB s.board m.toRow m.toCol (some piece)) fr fc
                none) m.toRow 7)) ty +
            wT (at? (setB (setB s.board m.toRow m.toCol (some piece)) fr fc
              none) m.toRow 5) ty =
            cntT (setB (setB s.board m.toRow m.toCol (some piece)) fr fc
              none) ty +
            wT (at? (setB (setB s.board m.toRow m.toCol (some piece)) fr fc
              none) m.toRow 7) ty := cntT_setB _ _ _ hv5
        rw [h5] at E4
        have h7 : at? (setB (setB (setB s.board m.toRow m.toCol (some piece))
            fr fc none) m.toRow 5
            (at? (setB (setB s.board m.toRow m.toCol (some piece)) fr fc
              none) m.toRow 7)) m.toRow 7 =
            at? (setB (setB s.board m.toRow m.toCol (some piece)) fr fc
              none) m.toRow 7 :=
          at?_setB_ne _ _ (Or.inr (by decide))
        have E5 : cntT (setB (setB (setB (setB s.board m.toRow m.toCol
              (some piece)) fr fc none) m.toRow 5
              (at? (setB (setB s.board m.toRow m.toCol (some piece)) fr fc
                none) m.toRow 7)) m.toRow 7 none) ty +
            wT (at? (setB (setB (setB s.board m.toRow m.toCol (some piece))
              fr fc none) m.toRow 5
              (at? (setB (setB s.board m.toRow m.toCol (some piece)) fr fc
                none) m.toRow 7)) m.toRow 7) ty =
            cntT (setB (setB (setB s.board m.toRow m.toCol (some piece)) fr fc
              none) m.toRow 5
              (at? (setB (setB s.board m.toRow m.toCol (some piece)) fr fc
                none) m.toRow 7)) ty + wT none ty := cntT_setB _ _ _ hv7
        rw [h7] at E5
        simp only [show wT (none : Option Piece) ty = 0 from rfl] at E3 E4 E5
        omega
      · -- queen side
        obtain ⟨-, hmr, hmc, hg1, hg2, hg3⟩ := F.castle_q hcs
        have hv3 : isValidPosition m.toRow 3 = true :=
          isValidPosition_iff.mpr (by omega)
        have hv0 : isValidPosition m.toRow 0 = true :=
          isValidPosition_iff.mpr (by omega)
        have h3 : at? (setB (setB s.board m.toRow m.toCol (some piece)) fr fc
            none) m.toRow 3 = none := by
          by_cases hq : fr = m.toRow ∧ fc = 3
          · rw [hq.1, hq.2, at?_setB_self _ _ hv3]
          · have hne : (m.toRow : Int) ≠ fr ∨ (3 : Int) ≠ fc := by
              by_cases h1 : fr = m.toRow
              · exact Or.inr fun h2 => hq ⟨h1, h2.symm⟩
              · exact Or.inl fun h2 => h1 h2.symm
            rw [at?_setB_ne _ _ hne,
              at?_setB_ne _ _ (Or.inr (by rw [hmc]; decide)), hmr, hg3]
        have hbV : newBoardOfMove s.board piece m fr fc m.toRow m.toCol pr =
            setB (setB (setB (setB s.board m.toRow m.toCol (some piece)) fr fc
              none) m.toRow 3
              (at? (setB (setB s.board m.toRow m.toCol (some piece)) fr fc
                none) m.toRow 0)) m.toRow 0 none := by
          simp only [newBoardOfMove]
          rw [if_neg hE, if_neg hPP, hcs]
        rw [hbV]
        have E4 : cntT (setB (setB (setB s.board m.toRow m.toCol (some piece))
              fr fc none) m.toRow 3
              (at? (setB (setB s.board m.toRow m.toCol (some piece)) fr fc
                none) m.toRow 0)) ty +
            wT (at? (setB (setB s.board m.toRow m.toCol (some piece)) fr fc
              none) m.toRow 3) ty =
            cntT (setB (setB s.board m.toRow m.toCol (some piece)) fr fc
              none) ty +
            wT (at? (setB (setB s.board m.toRow m.toCol (some piece)) fr fc
              none) m.toRow 0) ty := cntT_setB _ _ _ hv3
        rw [h3] at E4
        have h0 : at? (setB (setB (setB s.board m.toRow m.toCol (some piece))
            fr fc none) m.toRow 3
            (at? (setB (setB s.board m.toRow m.toCol (some piece)) fr fc
              none) m.toRow 0)) m.toRow 0 =
            at? (setB (setB s.board m.toRow m.toCol (some piece)) fr fc
              none) m.toRow 0 :=
          at?_setB_ne _ _ (Or.inr (by decide))
        have E5 : cntT (setB (setB (setB (setB s.board m.toRow m.toCol
              (some piece)) fr fc none) m.toRow 3
              (at? (setB (setB s.board m.toRow m.toCol (some piece)) fr fc
                none) m.toRow 0)) m.toRow 0 none) ty +
            wT (at? (setB (setB (setB s.board m.toRow m.toCol (some piece))
              fr fc none) m.toRow 3
              (at? (setB (setB s.board m.toRow m.toCol (some piece)) fr fc
                none) m.toRow 0)) m.toRow 0) ty =
            cntT (setB (setB (setB s.board m.toRow m.toCol (some piece)) fr fc
              none) m.toRow 3
              (at? (setB (setB s.board m.toRow m.toCol (some piece)) fr fc
                none) m.toRow 0)) ty + wT none ty := cntT_setB _ _ _ hv0
        rw [h0] at E5
        simp only [show wT (none : Option Piece) ty = 0 from rfl] at E3 E4 E5
        omega

theorem dropSuccState_board (s : GameState) (pt : PieceType) (row col : Int)
    (color : Color) : (dropSuccState s pt row col color).board =
      setB s.board row col (some ⟨pt, color⟩) :=
  recomputeTerminal_board _ _

theorem dropPiece_ok_inv {s : GameState} {pt : PieceType} {row col : Int}
    {color : Color} {s2 : GameState}
    (h : dropPiece s pt row col color = .ok s2) :
    s.turn = color ∧ canDropPiece s.board pt row col color = true ∧
    isInCheck (setB s.board row col (some ⟨pt, color⟩)) color = false ∧
    s2 = dropSuccState s pt row col color := by
  unfold dropPiece at h
  split at h
  · exact absurd h (by simp)
  next h1 =>
    split at h
    · exact absurd h (by simp)
    next h2 =>
      split at h
      · exact absurd h (by simp)
      next h3 =>
        injection h with h4
        exact ⟨not_not.mp h1, by simpa using h2, by simpa using h3, h4.symm⟩

theorem canDropPiece_true_empty {b : Board} {pt : PieceType} {row col : Int}
    {color : Color} (h : canDropPiece b pt row col color = true) :
    at? b row col = none := by
  unfold canDropPiece at h
  by_cases hs : (at? b row col).isSome
  · rw [if_pos hs] at h
    exact absurd h (by decide)
  · exact Option.not_isSome_iff_eq_none.mp hs

theorem dropPiece_cntT {s : GameState} {pt : PieceType} {row col : Int}
    {color : Color} {s2 : GameState} (ty : PieceType)
    (hv : isValidPosition row col = true)
    (h : dropPiece s pt row col color = .ok s2) :
    cntT s2.board ty =
      cntT s.board ty + wT (some ⟨pt, color⟩) ty := by
  obtain ⟨-, hcd, -, hs2⟩ := dropPiece_ok_inv h
  have hempty := canDropPiece_true_empty hcd
  have E := cntT_setB s.board (some (⟨pt, color⟩ : Piece)) ty hv
  rw [hempty] at E
  rw [hs2, dropSuccState_board]
  simp only [show wT (none : Option Piece) ty = 0 from rfl] at E
  omega

theorem findIdx?_erase_count :
    ∀ {l : List Piece} {p : Piece → Bool} {i : Nat}, l.findIdx? p = some i →
      ∃ a, l.get? i = some a ∧ p a = true ∧
        ∀ q : Piece → Bool,
          (l.eraseIdx i).countP q + (if q a then 1 else 0) = l.countP q := by
  intro l
  induction l with
  | nil => intro p i h; simp [List.findIdx?] at h
  | cons a l ih =>
    intro p i h
    rw [List.findIdx?_cons, List.findIdx?_succ] at h
    split at h
    · next hpa =>
      injection h with h0
      subst h0
      refine ⟨a, rfl, hpa, fun q => ?_⟩
      simp [List.countP_cons]
    · next hpa =>
      simp only [Option.map_eq_some'] at h
      obtain ⟨j, hj, hij⟩ := h
      obtain ⟨x, hx1, hx2, hx3⟩ := ih hj
      subst hij
      refine ⟨x, hx1, hx2, fun q => ?_⟩
      have := hx3 q
      simp only [List.eraseIdx_cons_succ, List.countP_cons]
      omega

/-- Bank update performed by the `makeMove` handler: the captured piece (if
any), recolored to the teammate's color, appended to the teammate's bank. -/
def bankRoom (r : Room) (pos : Nat) (cap : Option Piece) : Room :=
  match cap with
  | some cp =>
    { r with pieceBanks := fun j =>
        if j = getTeammate pos then
          r.pieceBanks (getTeammate pos) ++ [⟨cp.type, getPlayerColor (getTeammate pos)⟩]
        else r.pieceBanks j }
  | none => r

theorem handleMakeMove_ok {room : Room} {pid bi : Nat} {fr fc tr tc : Int}
    {pr : Option PieceType} {player : Player} {s2 : GameState}
    {cap : Option Piece}
    (hstart : room.gameStarted = true)
    (hfind : room.players.find? (fun p => p.id == pid) = some player)
    (hbi : bi = getPlayerBoard player.position)
    (hturn : (boardGet room bi).turn = getPlayerColor player.position)
    (hmk : makeMove (boardGet room bi) fr fc tr tc pr = .ok s2 cap) :
    handleMakeMove room pid bi (fr, fc) (tr, tc) pr =
      (bankRoom (boardSet room bi s2) player.position cap,
       [SEvent.gameStateB] ++
        (if s2.isCheckmate then
          [SEvent.gameOver (some (getPlayerTeam player.position)) "checkmate"
            bi]
        else if s2.isStalemate then
          [SEvent.gameOver none "stalemate" bi]
        else [])) := by
  unfold handleMakeMove
  rw [if_neg (by simp [hstart])]
  simp only [hfind]
  rw [if_neg (by simp [hbi]), if_neg (by simp [hturn])]
  simp only [hmk]
  cases cap <;> rfl

theorem handleDropPiece_ok {room : Room} {pid : Nat} {pt : PieceType}
    {row col : Int} {player : Player} {i : Nat} {s2 : GameState}
    (hstart : room.gameStarted = true)
    (hfind : room.players.find? (fun p => p.id == pid) = some player)
    (hturn : (boardGet room (getPlayerBoard player.position)).turn =
      getPlayerColor player.position)
    (hidx : (room.pieceBanks player.position).findIdx?
      (fun p => p.type == pt && p.color == getPlayerColor player.position) =
      some i)
    (hdp : dropPiece (boardGet room (getPlayerBoard player.position)) pt row
      col (getPlayerColor player.position) = .ok s2) :
    handleDropPiece room pid pt row col =
      ({ boardSet room (getPlayerBoard player.position) s2 with
          pieceBanks := fun j =>
            if j = player.position then
              (room.pieceBanks player.position).eraseIdx i
            else room.pieceBanks j },
       [SEvent.gameStateB] ++
        (if s2.isCheckmate then
          [SEvent.gameOver (some (getPlayerTeam player.position)) "checkmate"
            (getPlayerBoard player.position)]
        else [])) := by
  unfold handleDropPiece
  rw [if_neg (by simp [hstart])]
  simp only [hfind]
  rw [if_neg (by simp [hturn])]
  simp only [hidx, hdp]

theorem handleDropPiece_reject {room : Room} {pid : Nat} {pt : PieceType}
    {row col : Int} {player : Player}
    (hfind : room.players.find? (fun p => p.id == pid) = some player)
    (hfail : (dropPiece (boardGet room (getPlayerBoard player.position)) pt
      row col (getPlayerColor player.position)).success = false) :
    (handleDropPiece room pid pt row col).1 = room := by
  unfold handleDropPiece
  by_cases hstart : room.gameStarted = false
  · rw [if_pos hstart]
  · rw [if_neg hstart]
    simp only [hfind]
    split
    · rfl
    · split
      · rfl
      · next i hidx =>
        split
        · rfl
        · next s2 hdp =>
          rw [hdp] at hfail
          exact absurd hfail (by simp [DropResult.success])

theorem isValidPieceType_code (pt : PieceType) :
    isValidPieceType (pieceCode pt) = true := by
  cases pt <;> decide

theorem handleDropPieceH_ok {room : Room} {pid : Nat} {pt : PieceType}
    {row col : Int} {player : Player} {i : Nat} {s2 : GameState}
    (hval : isValidPosition row col = true)
    (hstart : room.gameStarted = true)
    (hfind : room.players.find? (fun p => p.id == pid) = some player)
    (hturn : (boardGet room (getPlayerBoard player.position)).turn =
      getPlayerColorH player.position)
    (hidx : (room.pieceBanks player.position).findIdx?
      (fun p => p.type == pt && p.color == getPlayerColorH player.position) =
      some i)
    (hdp : dropPiece (boardGet room (getPlayerBoard player.position)) pt row
      col (getPlayerColorH player.position) = .ok s2) :
    handleDropPieceH room pid pt row col =
      ({ boardSet room (getPlayerBoard player.position) s2 with
          pieceBanks := fun j =>
            if j = player.position then
              (room.pieceBanks player.position).eraseIdx i
            else room.pieceBanks j },
       [SEvent.gameStateB] ++
        (if s2.isCheckmate then
          [SEvent.gameOver (some (getPlayerTeam player.position)) "checkmate"
            (getPlayerBoard player.position)]
        else if s2.isStalemate then
          [SEvent.gameOver none "stalemate" (getPlayerBoard player.position)]
        else [])) := by
  unfold handleDropPieceH
  rw [if_neg (by simp [hval, isValidPieceType_code])]
  rw [if_neg (by simp [hstart])]
  simp only [hfind]
  rw [if_neg (by simp [hturn])]
  simp only [hidx, hdp]

theorem bankCntT_append_one (l : List Piece) (p : Piece) (ty : PieceType) :
    bankCntT (l ++ [p]) ty = bankCntT l ty + wT (some p) ty := by
  simp only [bankCntT, List.countP_append, List.countP_cons, List.countP_nil,
    wT]
  by_cases hq : p.type = ty <;> simp [hq]

theorem wT_some (p : Piece) (ty : PieceType) :
    wT (some p) ty = if p.type = ty then 1 else 0 := rfl

theorem wT_mk_type (t : PieceType) (c : Color) (ty : PieceType) :
    wT (some ⟨t, c⟩) ty = if t = ty then 1 else 0 := rfl

set_option maxHeartbeats 2000000 in
theorem tc_move_aux {room : Room} {pid bi : Nat} {fr fc tr tc : Int}
    {pr : Option PieceType} {room2 : Room} {evs : List SEvent}
    {player : Player} {piece : Piece} {s2 : GameState} {cap : Option Piece}
    (ty : PieceType)
    (hepk : epOK (boardGet room bi))
    (hfind : room.players.find? (fun p => p.id == pid) = some player)
    (hpos : player.position < 4)
    (hat : at? (boardGet room bi).board fr fc = some piece)
    (hmk : makeMove (boardGet room bi) fr fc tr tc pr = .ok s2 cap)
    (hh : handleMakeMove room pid bi (fr, fc) (tr, tc) pr = (room2, evs))
    (hstart : room.gameStarted = true)
    (hbi : bi = getPlayerBoard player.position)
    (hturn : (boardGet room bi).turn = getPlayerColor player.position) :
    totalCntT room2 ty +
      (if piece.type = PieceType.pawn ∧
          tr = (if piece.color = Color.white then (0 : Int) else 7) ∧
          ty = PieceType.pawn then 1 else 0) =
    totalCntT room ty +
      (if piece.type = PieceType.pawn ∧
          tr = (if piece.color = Color.white then (0 : Int) else 7) ∧
          ty = pr.getD PieceType.queen then 1 else 0) := by
  have hkey := makeMove_cntT ty hepk hat hmk
  rw [handleMakeMove_ok hstart hfind hbi hturn hmk] at hh
  rw [Prod.mk.injEq] at hh
  obtain ⟨hr, he⟩ := hh
  subst hr
  obtain ⟨pidv, pos⟩ := player
  simp only at hbi hturn hkey hpos
  have hpos4 : pos = 0 ∨ pos = 1 ∨ pos = 2 ∨ pos = 3 := by omega
  rcases hpos4 with rfl | rfl | rfl | rfl <;>
  · simp only [getPlayerBoard] at hbi
    norm_num at hbi
    subst hbi
    rcases cap with _ | cp
    · simp only [totalCntT, bankRoom, boardSet, boardGet, reduceIte,
        Nat.reduceEqDiff] at hkey ⊢
      simp only [show wT (none : Option Piece) ty = 0 from rfl] at hkey
      omega
    · simp only [totalCntT, bankRoom, boardSet, boardGet, getTeammate,
        getPlayerColor, bankCntT_append_one, wT_some, wT_mk_type, reduceIte,
        Nat.reduceEqDiff] at hkey ⊢
      omega

theorem gpb_0 : getPlayerBoard 0 = 0 := rfl
theorem gpb_1 : getPlayerBoard 1 = 0 := rfl
theorem gpb_2 : getPlayerBoard 2 = 1 := rfl
theorem gpb_3 : getPlayerBoard 3 = 1 := rfl
theorem gpc_0 : getPlayerColor 0 = Color.white := rfl
theorem gpc_1 : getPlayerColor 1 = Color.black := rfl
theorem gpc_2 : getPlayerColor 2 = Color.white := rfl
theorem gpc_3 : getPlayerColor 3 = Color.black := rfl
theorem gtm_0 : getTeammate 0 = 2 := rfl
theorem gtm_1 : getTeammate 1 = 3 := rfl
theorem gtm_2 : getTeammate 2 = 0 := rfl
theorem gtm_3 : getTeammate 3 = 1 := rfl

set_option maxHeartbeats 1000000 in
theorem tc_drop_aux {room : Room} {pid : Nat} {pt : PieceType} {row col : Int}
    {room2 : Room} {evs : List SEvent} {player : Player} {i : Nat}
    {s2 : GameState} (ty : PieceType)
    (hfind : room.players.find? (fun p => p.id == pid) = some player)
    (hpos : player.position < 4)
    (hval : isValidPosition row col = true)
    (hidx : (room.pieceBanks player.position).findIdx?
      (fun p => p.type == pt && p.color == getPlayerColor player.position) =
      some i)
    (hdp : dropPiece (boardGet room (getPlayerBoard player.position)) pt row
      col (getPlayerColor player.position) = .ok s2)
    (hh : handleDropPiece room pid pt row col = (room2, evs))
    (hstart : room.gameStarted = true)
    (hturn : (boardGet room (getPlayerBoard player.position)).turn =
      getPlayerColor player.position) :
    totalCntT room2 ty = totalCntT room ty := by
  have hkey := dropPiece_cntT ty hval hdp
  obtain ⟨a, hga, hpa, hcnt⟩ := findIdx?_erase_count hidx
  simp only [Bool.and_eq_true, beq_iff_eq] at hpa
  have hbk := hcnt (fun p => p.type == ty)
  have hbk' : bankCntT ((room.pieceBanks player.position).eraseIdx i) ty +
      wT (some (⟨pt, getPlayerColor player.position⟩ : Piece)) ty =
      bankCntT (room.pieceBanks player.position) ty := by
    rw [wT_mk_type, ← hpa.1]
    simpa only [bankCntT, beq_iff_eq] using hbk
  rw [handleDropPiece_ok hstart hfind hturn hidx hdp] at hh
  rw [Prod.mk.injEq] at hh
  obtain ⟨hr, he⟩ := hh
  subst hr
  obtain ⟨pidv, pos⟩ := player
  simp only at hkey hbk' hpos ⊢
  have hpos4 : pos = 0 ∨ pos = 1 ∨ pos = 2 ∨ pos = 3 := by omega
  rcases hpos4 with rfl | rfl | rfl | rfl <;>
  · simp only [gpb_0, gpb_1, gpb_2, gpb_3, gpc_0, gpc_1, gpc_2, gpc_3,
      totalCntT, boardSet, boardGet, reduceIte, Nat.reduceEqDiff, wT_mk_type]
      at hkey hbk' ⊢
    omega

def c2s2 : GameState := roomC2c.1.boards.1

def c7s2 : GameState := roomC7a.1.boards.1

/-- C2 (amended): for every accepted move or drop handled by the
`src/server/index.js` coordinator, the multiset of piece TYPES over both
boards and all four banks is invariant, except that an accepted pawn move
onto the promotion rank replaces one pawn by one piece of the promoted type
(`promotion` defaulting to queen).  The color component is NOT preserved:
the capture transfer recolors the captured piece to
`getPlayerColor(teammate)`, and under this file's same-color teammate
mapping that is the capturing seat's own color, so a captured enemy piece
changes color on entering the bank (see `C2_counterexample`). -/
theorem C2_type_conservation :
    (∀ (room : Room) (pid bi : Nat) (fr fc tr tc : Int)
      (pr : Option PieceType) (room2 : Room) (evs : List SEvent)
      (player : Player) (piece : Piece) (s2 : GameState) (cap : Option Piece)
      (ty : PieceType),
      epOK (boardGet room bi) →
      room.players.find? (fun p => p.id == pid) = some player →
      player.position < 4 →
      at? (boardGet room bi).board fr fc = some piece →
      makeMove (boardGet room bi) fr fc tr tc pr = .ok s2 cap →
      handleMakeMove room pid bi (fr, fc) (tr, tc) pr = (room2, evs) →
      room.gameStarted = true →
      bi = getPlayerBoard player.position →
      (boardGet room bi).turn = getPlayerColor player.position →
      totalCntT room2 ty +
        (if piece.type = PieceType.pawn ∧
            tr = (if piece.color = Color.white then (0 : Int) else 7) ∧
            ty = PieceType.pawn then 1 else 0) =
      totalCntT room ty +
        (if piece.type = PieceType.pawn ∧
            tr = (if piece.color = Color.white then (0 : Int) else 7) ∧
            ty = pr.getD PieceType.queen then 1 else 0)) ∧
    (∀ (room : Room) (pid : Nat) (pt : PieceType) (row col : Int)
      (room2 : Room) (evs : List SEvent) (player : Player) (i : Nat)
      (s2 : GameState) (ty : PieceType),
      room.players.find? (fun p => p.id == pid) = some player →
      player.position < 4 →
      isValidPosition row col = true →
      (room.pieceBanks player.position).findIdx?
        (fun p => p.type == pt && p.color == getPlayerColor player.position) =
        some i →
      dropPiece (boardGet room (getPlayerBoard player.position)) pt row col
        (getPlayerColor player.position) = .ok s2 →
      handleDropPiece room pid pt row col = (room2, evs) →
      room.gameStarted = true →
      (boardGet room (getPlayerBoard player.position)).turn =
        getPlayerColor player.position →
      totalCntT room2 ty = totalCntT room ty) ∧
    (∀ i : Nat, i < 4 → getPlayerColor (getTeammate i) = getPlayerColor i) := by
  refine ⟨?_, ?_, by decide⟩
  · intro room pid bi fr fc tr tc pr room2 evs player piece s2 cap ty hepk
      hfind hpos hat hmk hh hstart hbi hturn
    exact tc_move_aux ty hepk hfind hpos hat hmk hh hstart hbi hturn
  · intro room pid pt row col room2 evs player i s2 ty hfind hpos hval hidx
      hdp hh hstart hturn
    exact tc_drop_aux ty hfind hpos hval hidx hdp hh hstart hturn

/-- Witness for `C2_type_conservation`: the pawn-capture step of the
`roomC2` session and the queen drop of the `roomC7` session, instantiated
concretely. -/
theorem C2_type_conservation_witness :
    (totalCntT roomC2c.1 PieceType.pawn +
      (if (⟨PieceType.pawn, Color.white⟩ : Piece).type = PieceType.pawn ∧
          (3 : Int) = (if (⟨PieceType.pawn, Color.white⟩ : Piece).color =
            Color.white then (0 : Int) else 7) ∧
          PieceType.pawn = PieceType.pawn then 1 else 0) =
    totalCntT roomC2b.1 PieceType.pawn +
      (if (⟨PieceType.pawn, Color.white⟩ : Piece).type = PieceType.pawn ∧
          (3 : Int) = (if (⟨PieceType.pawn, Color.white⟩ : Piece).color =
            Color.white then (0 : Int) else 7) ∧
          PieceType.pawn = (none : Option PieceType).getD PieceType.queen
        then 1 else 0)) ∧
    totalCntT roomC7a.1 PieceType.queen = totalCntT roomC7 PieceType.queen ∧
    getPlayerColor (getTeammate 0) = getPlayerColor 0 := by
  refine ⟨?_, ?_, C2_type_conservation.2.2 0 (by decide)⟩
  · exact C2_type_conservation.1 roomC2b.1 100 0 4 4 3 3 none roomC2c.1
      roomC2c.2 ⟨100, 0⟩ ⟨PieceType.pawn, Color.white⟩ c2s2
      (some ⟨PieceType.pawn, Color.black⟩) PieceType.pawn (by decide)
      (by decide) (by decide) (by decide) (by decide) rfl (by decide)
      (by decide) (by decide)
  · exact C2_type_conservation.2.1 roomC7 100 PieceType.queen 1 2 roomC7a.1
      roomC7a.2 ⟨100, 0⟩ 0 c7s2 PieceType.queen (by decide) (by decide)
      (by decide) (by decide) (by decide) rfl (by decide) (by decide)

def c3res : MoveResult := makeMove promoState 1 0 0 0 (some PieceType.king)

def c3s2 : GameState := c3res.stateOf.getD createGameState

/-! ### Claim C3 -/

/-- C3 counterexample: `makeMove` with `promotion = king` succeeds and places
a second white KING on the board — the engine never restricts the promotion
piece to queen/rook/bishop/knight, and the hardened handler's
`isValidPieceType` guard accepts the king and pawn codes as well. -/
theorem C3_counterexample :
    (makeMove promoState 1 0 0 0 (some PieceType.king)).success = true ∧
    ((makeMove promoState 1 0 0 0 (some PieceType.king)).stateOf.bind
      fun s => at? s.board 0 0) = some ⟨PieceType.king, Color.white⟩ ∧
    isValidPieceType (pieceCode PieceType.king) = true ∧
    isValidPieceType (pieceCode PieceType.pawn) = true := by
  exact ⟨by decide, by decide, by decide, by decide⟩

/-- C3 (amended): the hardened handler's promotion validation accepts every
one of the six piece codes — including king and pawn — and `makeMove`
applies whatever promotion type was supplied (defaulting to queen) whenever
a pawn reaches the promotion rank: the destination square afterwards holds
exactly a piece of the supplied type in the mover's color. -/
theorem C3_promotion_applied :
    (∀ pt : PieceType, isValidPieceType (pieceCode pt) = true) ∧
    (∀ (s : GameState) (fr fc tr tc : Int) (pr : Option PieceType)
      (s2 : GameState) (cap : Option Piece) (piece : Piece),
      at? s.board fr fc = some piece →
      piece.type = PieceType.pawn →
      tr = (if piece.color = Color.white then (0 : Int) else 7) →
      makeMove s fr fc tr tc pr = .ok s2 cap →
      at? s2.board tr tc = some ⟨pr.getD PieceType.queen, piece.color⟩) := by
  refine ⟨isValidPieceType_code, ?_⟩
  intro s fr fc tr tc pr s2 cap piece hp hpt htr h
  obtain ⟨piece', m, hp', hcol, hmem, hm1, hm2, hs', hcapEq⟩ := makeMove_ok_inv h
  rw [hp] at hp'
  injection hp' with hpe
  subst hpe
  subst hm1
  subst hm2
  have F := legal_facts hp hmem
  have hfrne : m.toRow ≠ fr := F.pawn_row hpt
  have hcn : m.castling = none := F.castle_none (by rw [hpt]; decide)
  have hPP : piece.type = PieceType.pawn ∧
      m.toRow = (if piece.color = Color.white then (0 : Int) else 7) :=
    ⟨hpt, htr⟩
  have hbV : newBoardOfMove s.board piece m fr fc m.toRow m.toCol pr =
      setB (setB (setB (if m.enPassant = true then
          setB s.board (epRow piece.color m.toRow) m.toCol none else s.board)
        m.toRow m.toCol (some piece)) fr fc none) m.toRow m.toCol
        ((at? (setB (setB (if m.enPassant = true then
          setB s.board (epRow piece.color m.toRow) m.toCol none else s.board)
        m.toRow m.toCol (some piece)) fr fc none) m.toRow m.toCol).map
          fun p => { p with type := pr.getD PieceType.queen }) := by
    simp only [newBoardOfMove]
    rw [if_pos hPP, hcn]
  rw [hs', succState_board, hbV]
  rw [at?_setB_self _ _ F.valid]
  rw [at?_setB_ne _ _ (Or.inl hfrne), at?_setB_self _ _ F.valid]
  rfl

/-- Witness for `C3_promotion_applied`: the concrete king-promotion. -/
theorem C3_promotion_applied_witness :
    at? c3s2.board 0 0 =
      some ⟨(some PieceType.king).getD PieceType.queen, Color.white⟩ :=
  C3_promotion_applied.2 promoState 1 0 0 0 (some PieceType.king) c3s2
    (c3res.capturedOf) ⟨PieceType.pawn, Color.white⟩ (by decide) rfl
    (by decide) (by decide)

/-! ### Claim C4 -/

def rightsSide (br : BothRights) (col : Color) : CastleSide → Bool
  | .kingSide => (br.get col).kingSide
  | .queenSide => (br.get col).queenSide

def cornerCol : CastleSide → Int
  | .kingSide => 7
  | .queenSide => 0

theorem rightsSide_setBoth (br : BothRights) (pc col : Color)
    (side : CastleSide) :
    rightsSide (br.set pc ⟨false, false⟩) col side =
      (rightsSide br col side && !(pc == col)) := by
  cases side <;> cases pc <;> cases col <;>
    simp [rightsSide, BothRights.set, BothRights.get]

theorem rightsSide_clearRookCols (q : BothRights) (pc : Color) (x : Int)
    (col : Color) (side : CastleSide) :
    rightsSide (clearRookCols q pc x) col side =
      (rightsSide q col side && !(pc == col && x == cornerCol side)) := by
  cases side <;> cases pc <;> cases col <;>
    by_cases h0 : x = 0 <;> by_cases h7 : x = 7 <;>
      first
      | exact absurd (h0 ▸ h7) (by decide)
      | simp [clearRookCols, BothRights.set, BothRights.get, rightsSide,
          cornerCol, h0, h7]

theorem updateCastlingRights_spec (br : BothRights) (piece : Piece)
    (fromCol toCol : Int) (captured : Option Piece) (col : Color)
    (side : CastleSide) :
    rightsSide (updateCastlingRights br piece fromCol toCol captured) col
        side =
      (rightsSide br col side &&
       !((piece.type == PieceType.king && piece.color == col) ||
         (piece.type == PieceType.rook && piece.color == col &&
           fromCol == cornerCol side) ||
         (match captured with
          | some cp => cp.type == PieceType.rook && cp.color == col &&
              toCol == cornerCol side
          | none => false))) := by
  have h1 : ∀ q : BothRights,
      rightsSide (if piece.type = PieceType.king then
        q.set piece.color ⟨false, false⟩ else q) col side =
      (rightsSide q col side &&
        !(piece.type == PieceType.king && piece.color == col)) := by
    intro q
    by_cases hk : piece.type = PieceType.king
    · rw [if_pos hk, rightsSide_setBoth]
      simp [hk]
    · rw [if_neg hk]
      simp [beq_iff_eq, hk]
  have h2 : ∀ q : BothRights,
      rightsSide (if piece.type = PieceType.rook then
        clearRookCols q piece.color fromCol else q) col side =
      (rightsSide q col side &&
        !(piece.type == PieceType.rook && piece.color == col &&
          fromCol == cornerCol side)) := by
    intro q
    by_cases hr : piece.type = PieceType.rook
    · rw [if_pos hr, rightsSide_clearRookCols]
      simp [hr, Bool.and_assoc]
    · rw [if_neg hr]
      simp [beq_iff_eq, hr]
  have h3 : ∀ q : BothRights,
      rightsSide (match captured with
        | some cp => if cp.type = PieceType.rook then
            clearRookCols q cp.color toCol else q
        | none => q) col side =
      (rightsSide q col side &&
        !(match captured with
          | some cp => cp.type == PieceType.rook && cp.color == col &&
              toCol == cornerCol side
          | none => false)) := by
    intro q
    rcases captured with _ | cp
    · simp
    · by_cases hr : cp.type = PieceType.rook
      · simp only [if_pos hr, rightsSide_clearRookCols]
        simp [hr, Bool.and_assoc]
      · simp only [if_neg hr]
        simp [beq_iff_eq, hr]
  simp only [updateCastlingRights]
  rw [h3, h2, h1]
  cases rightsSide br col side <;> simp [Bool.not_or, Bool.and_assoc]

def c4res : MoveResult := makeMove rightsState 4 0 4 1 none

def c4s2 : GameState := c4res.stateOf.getD createGameState

/-- C4 counterexample: a white rook standing mid-board on column 0 (while
the original corner rook on (7,0) has never moved) slides sideways; the
code still revokes white's queen-side castling right, because the update
keys on the source COLUMN only, not on the original corner square. -/
theorem C4_counterexample :
    (makeMove rightsState 4 0 4 1 none).success = true ∧
    ((makeMove rightsState 4 0 4 1 none).stateOf.map
      fun s => s.castlingRights.white.queenSide) = some false ∧
    ((makeMove rightsState 4 0 4 1 none).stateOf.bind
      fun s => at? s.board 7 0) = some ⟨PieceType.rook, Color.white⟩ ∧
    rightsState.castlingRights.white.queenSide = true := by
  exact ⟨by decide, by decide, by decide, by decide⟩

/-- C4 (amended): after every successful `makeMove`, the castling-rights
flag of `(col, side)` is the old flag AND NOT revoked, where revocation
happens exactly when: that color's king moved; or a rook of that color moved
whose source column is the corner column of `side` (any source row); or the
move captured a ROOK of `col` on a square whose column is the corner column
of `side` (any row).  Captures of non-rook pieces on corner squares do not
revoke, and rook moves from a corner column revoke even when the piece never
stood on the original corner square. -/
theorem C4_castling_rights_update :
    ∀ (s : GameState) (fr fc tr tc : Int) (pr : Option PieceType)
      (s2 : GameState) (cap : Option Piece) (piece : Piece) (col : Color)
      (side : CastleSide),
      at? s.board fr fc = some piece →
      makeMove s fr fc tr tc pr = .ok s2 cap →
      rightsSide s2.castlingRights col side =
        (rightsSide s.castlingRights col side &&
         !((piece.type == PieceType.king && piece.color == col) ||
           (piece.type == PieceType.rook && piece.color == col &&
             fc == cornerCol side) ||
           (match cap with
            | some cp => cp.type == PieceType.rook && cp.color == col &&
                tc == cornerCol side
            | none => false))) := by
  intro s fr fc tr tc pr s2 cap piece col side hp h
  obtain ⟨piece', m, hp', hcol, hmem, hm1, hm2, hs', hcapEq⟩ := makeMove_ok_inv h
  rw [hp] at hp'
  injection hp' with hpe
  subst hpe
  subst hm1
  subst hm2
  rw [hs', succState_castlingRights, ← hcapEq]
  exact updateCastlingRights_spec _ _ _ _ _ _ _

/-- Witness for `C4_castling_rights_update`: the mid-board rook slide of
`C4_counterexample`, queen side, white. -/
theorem C4_castling_rights_update_witness :
    rightsSide c4s2.castlingRights Color.white CastleSide.queenSide =
      (rightsSide rightsState.castlingRights Color.white CastleSide.queenSide
        &&
       !(((⟨PieceType.rook, Color.white⟩ : Piece).type == PieceType.king &&
           (⟨PieceType.rook, Color.white⟩ : Piece).color == Color.white) ||
         ((⟨PieceType.rook, Color.white⟩ : Piece).type == PieceType.rook &&
           (⟨PieceType.rook, Color.white⟩ : Piece).color == Color.white &&
           (0 : Int) == cornerCol CastleSide.queenSide) ||
         (match (none : Option Piece) with
          | some cp => cp.type == PieceType.rook && cp.color == Color.white &&
              (1 : Int) == cornerCol CastleSide.queenSide
          | none => false))) :=
  C4_castling_rights_update rightsState 4 0 4 1 none c4s2 none
    ⟨PieceType.rook, Color.white⟩ Color.white CastleSide.queenSide
    (by decide) (by decide)

/-! ### Claim C5 -/

theorem boardSet_pieceBanks (r : Room) (i : Nat) (gs : GameState) :
    (boardSet r i gs).pieceBanks = r.pieceBanks := by
  unfold boardSet
  split <;> rfl

theorem bankRoom_boards (r : Room) (pos : Nat) (cap : Option Piece) :
    (bankRoom r pos cap).boards = r.boards := by
  unfold bankRoom
  rcases cap <;> rfl

/-- C5 (confirmed): whenever the coordinator's `makeMove` returns a captured
piece, a piece of the same type recolored to the teammate's color is
appended to exactly the teammate's bank within the same handler step; every
other bank is untouched, and so is the sibling board.  When nothing is
captured, no bank changes at all. -/
theorem C5_capture_routing :
    ∀ (room : Room) (pid bi : Nat) (fr fc tr tc : Int)
      (pr : Option PieceType) (room2 : Room) (evs : List SEvent)
      (player : Player) (s2 : GameState) (cap : Option Piece),
      room.gameStarted = true →
      room.players.find? (fun p => p.id == pid) = some player →
      bi = getPlayerBoard player.position →
      (boardGet room bi).turn = getPlayerColor player.position →
      makeMove (boardGet room bi) fr fc tr tc pr = .ok s2 cap →
      handleMakeMove room pid bi (fr, fc) (tr, tc) pr = (room2, evs) →
      (∀ cp, cap = some cp →
        room2.pieceBanks (getTeammate player.position) =
          room.pieceBanks (getTeammate player.position) ++
            [⟨cp.type, getPlayerColor (getTeammate player.position)⟩] ∧
        ∀ j, j ≠ getTeammate player.position →
          room2.pieceBanks j = room.pieceBanks j) ∧
      (cap = none → ∀ j, room2.pieceBanks j = room.pieceBanks j) ∧
      (bi = 0 → room2.boards.2 = room.boards.2) ∧
      (bi = 1 → room2.boards.1 = room.boards.1) := by
  intro room pid bi fr fc tr tc pr room2 evs player s2 cap hstart hfind hbi
    hturn hmk hh
  rw [handleMakeMove_ok hstart hfind hbi hturn hmk] at hh
  rw [Prod.mk.injEq] at hh
  obtain ⟨hr, -⟩ := hh
  subst hr
  refine ⟨?_, ?_, ?_, ?_⟩
  · intro cp hcp
    subst hcp
    constructor
    · show (if getTeammate player.position = getTeammate player.position
        then _ else _) = _
      rw [if_pos rfl, boardSet_pieceBanks]
    · intro j hj
      show (if j = getTeammate player.position then _ else _) = _
      rw [if_neg hj, boardSet_pieceBanks]
  · intro hcap
    subst hcap
    intro j
    show (boardSet room bi s2).pieceBanks j = _
    rw [boardSet_pieceBanks]
  · intro hbi0
    subst hbi0
    rw [bankRoom_boards]
    rfl
  · intro hbi1
    rw [hbi1, bankRoom_boards]
    rfl

/-- Witness for `C5_capture_routing`: the pawn capture of the `roomC2`
session routes a white-recolored pawn into seat 2's bank and leaves seat 1's
bank and board 1 unchanged. -/
theorem C5_capture_routing_witness :
    (roomC2c.1.pieceBanks (getTeammate 0) =
      roomC2b.1.pieceBanks (getTeammate 0) ++
        [⟨PieceType.pawn, getPlayerColor (getTeammate 0)⟩]) ∧
    roomC2c.1.pieceBanks 1 = roomC2b.1.pieceBanks 1 ∧
    roomC2c.1.boards.2 = roomC2b.1.boards.2 := by
  have h := C5_capture_routing roomC2b.1 100 0 4 4 3 3 none roomC2c.1
    roomC2c.2 ⟨100, 0⟩ c2s2 (some ⟨PieceType.pawn, Color.black⟩) (by decide)
    (by decide) (by decide) (by decide) (by decide) rfl
  exact ⟨(h.1 ⟨PieceType.pawn, Color.black⟩ rfl).1,
    (h.1 ⟨PieceType.pawn, Color.black⟩ rfl).2 1 (by decide),
    h.2.2.1 rfl⟩

/-! ### Claim C6 -/

def roomC6 : Room :=
  startedRoom gateState createGameState
    (fun j => if j = 0 then [⟨.pawn, .white⟩] else [])

/-- C6 (confirmed): a pawn drop onto row 0 or 7 is rejected, a drop onto an
occupied square is rejected, and a drop whose placement leaves the dropping
side's own king attacked is rejected; in every rejected case the handler
leaves the room (in particular the dropping seat's bank) completely
unchanged, and a successful drop removes exactly one bank piece matching the
dropped type and the seat's color — the one at the `findIndex` position. -/
theorem C6_drop_gating :
    (∀ (gs : GameState) (pt : PieceType) (r c : Int) (col : Color),
      pt = PieceType.pawn → (r = 0 ∨ r = 7) →
      (dropPiece gs pt r c col).success = false) ∧
    (∀ (gs : GameState) (pt : PieceType) (r c : Int) (col : Color),
      (at? gs.board r c).isSome = true →
      (dropPiece gs pt r c col).success = false) ∧
    (∀ (gs : GameState) (pt : PieceType) (r c : Int) (col : Color),
      isInCheck (setB gs.board r c (some ⟨pt, col⟩)) col = true →
      (dropPiece gs pt r c col).success = false) ∧
    (∀ (room : Room) (pid : Nat) (pt : PieceType) (r c : Int)
      (player : Player),
      room.players.find? (fun p => p.id == pid) = some player →
      (dropPiece (boardGet room (getPlayerBoard player.position)) pt r c
        (getPlayerColor player.position)).success = false →
      (handleDropPiece room pid pt r c).1 = room) ∧
    (∀ (room : Room) (pid : Nat) (pt : PieceType) (r c : Int)
      (player : Player) (i : Nat) (s2 : GameState),
      room.gameStarted = true →
      room.players.find? (fun p => p.id == pid) = some player →
      (boardGet room (getPlayerBoard player.position)).turn =
        getPlayerColor player.position →
      (room.pieceBanks player.position).findIdx?
        (fun p => p.type == pt && p.color == getPlayerColor player.position) =
        some i →
      dropPiece (boardGet room (getPlayerBoard player.position)) pt r c
        (getPlayerColor player.position) = .ok s2 →
      (handleDropPiece room pid pt r c).1.pieceBanks player.position =
        (room.pieceBanks player.position).eraseIdx i ∧
      (∀ j, j ≠ player.position →
        (handleDropPiece room pid pt r c).1.pieceBanks j =
          room.pieceBanks j) ∧
      ((room.pieceBanks player.position).eraseIdx i).countP
          (fun p => p.type == pt && p.color == getPlayerColor player.position)
          + 1 =
        (room.pieceBanks player.position).countP
          (fun p => p.type == pt &&
            p.color == getPlayerColor player.position)) := by
  have hcd_pawn : ∀ (b : Board) (pt : PieceType) (r c : Int) (col : Color),
      pt = PieceType.pawn → (r = 0 ∨ r = 7) →
      canDropPiece b pt r c col = false := by
    intro b pt r c col hpt hr
    unfold canDropPiece
    split
    · rfl
    · rw [if_pos ⟨hpt, hr⟩]
  refine ⟨?_, ?_, ?_, ?_, ?_⟩
  · intro gs pt r c col hpt hr
    unfold dropPiece
    split
    · rfl
    · rw [if_pos (by rw [hcd_pawn gs.board pt r c col hpt hr])]
      rfl
  · intro gs pt r c col hocc
    unfold dropPiece
    split
    · rfl
    · rw [if_pos (by unfold canDropPiece; rw [if_pos hocc])]
      rfl
  · intro gs pt r c col hchk
    cases hres : dropPiece gs pt r c col with
    | err msg => rfl
    | ok s2 =>
      obtain ⟨-, -, hni, -⟩ := dropPiece_ok_inv hres
      exact absurd (hni.symm.trans hchk) (by decide)
  · intro room pid pt r c player hfind hfail
    exact handleDropPiece_reject hfind hfail
  · intro room pid pt r c player i s2 hstart hfind hturn hidx hdp
    obtain ⟨a, hga, hpa, hcnt⟩ := findIdx?_erase_count hidx
    rw [handleDropPiece_ok hstart hfind hturn hidx hdp]
    refine ⟨?_, ?_, ?_⟩
    · show (if player.position = player.position then _ else _) = _
      rw [if_pos rfl]
    · intro j hj
      show (if j = player.position then _ else _) = _
      rw [if_neg hj]
    · have := hcnt (fun p => p.type == pt &&
        p.color == getPlayerColor player.position)
      rw [hpa] at this
      simpa using this

/-- Witness for `C6_drop_gating`: pawn-on-row-0, occupied-square and
self-check drops on the `gateState` board are rejected with the room intact,
and the successful queen drop of the `roomC7` session consumes exactly the
matching bank piece. -/
theorem C6_drop_gating_witness :
    (dropPiece gateState PieceType.pawn 0 7 Color.white).success = false ∧
    (dropPiece gateState PieceType.queen 0 7 Color.white).success = false ∧
    (dropPiece gateState PieceType.pawn 2 7 Color.white).success = false ∧
    (handleDropPiece roomC6 100 PieceType.pawn 0 7).1 = roomC6 ∧
    roomC7a.1.pieceBanks 0 = (roomC7.pieceBanks 0).eraseIdx 0 ∧
    roomC7a.1.pieceBanks 1 = roomC7.pieceBanks 1 ∧
    ((roomC7.pieceBanks 0).eraseIdx 0).countP
        (fun p => p.type == PieceType.queen &&
          p.color == getPlayerColor 0) + 1 =
      (roomC7.pieceBanks 0).countP
        (fun p => p.type == PieceType.queen &&
          p.color == getPlayerColor 0) := by
  obtain ⟨h1, h2, h3, h4, h5⟩ := C6_drop_gating
  have h := h5 roomC7 100 PieceType.queen 1 2 ⟨100, 0⟩ 0 c7s2 (by decide)
    (by decide) (by decide) (by decide) (by decide)
  exact ⟨h1 gateState PieceType.pawn 0 7 Color.white rfl (Or.inl rfl),
    h2 gateState PieceType.queen 0 7 Color.white (by decide),
    h3 gateState PieceType.pawn 2 7 Color.white (by decide),
    h4 roomC6 100 PieceType.pawn 0 7 ⟨100, 0⟩ (by decide) (by decide),
    h.1, h.2.1 1 (by decide), h.2.2⟩

/-! ### Claim C7 -/

/-- C7 counterexample: a drop by white that stalemates black sets
`isStalemate` on the board, but the `src/server/index.js` drop handler
broadcasts only `gameState` — no `gameOver{winner: null, reason:
"stalemate"}` event is emitted in that transition, because this handler
checks `isCheckmate` only. -/
theorem C7_counterexample :
    roomC7a.1.boards.1.isStalemate = true ∧
    roomC7a.2 = [SEvent.gameStateB] := by
  exact ⟨by decide, by decide⟩

/-- C7 (amended): the board engine does recompute stalemate identically for
moves and drops, but only the hardened server variant announces it: for
every accepted drop whose resulting state is stalemate (and not checkmate),
`handleDropPieceH` emits `gameOver` with winner `none` and reason
`"stalemate"` in the same transition; the `src/server/index.js` handler
omits that branch for drops. -/
theorem C7_stalemate_emission_hardened :
    ∀ (room : Room) (pid : Nat) (pt : PieceType) (row col : Int)
      (room2 : Room) (evs : List SEvent) (player : Player) (i : Nat)
      (s2 : GameState),
      isValidPosition row col = true →
      room.gameStarted = true →
      room.players.find? (fun p => p.id == pid) = some player →
      (boardGet room (getPlayerBoard player.position)).turn =
        getPlayerColorH player.position →
      (room.pieceBanks player.position).findIdx?
        (fun p => p.type == pt && p.color == getPlayerColorH player.position) =
        some i →
      dropPiece (boardGet room (getPlayerBoard player.position)) pt row col
        (getPlayerColorH player.position) = .ok s2 →
      handleDropPieceH room pid pt row col = (room2, evs) →
      s2.isStalemate = true →
      s2.isCheckmate = false →
      evs = [SEvent.gameStateB,
        SEvent.gameOver none "stalemate" (getPlayerBoard player.position)] := by
  intro room pid pt row col room2 evs player i s2 hval hstart hfind hturn
    hidx hdp hh hstale hmate
  rw [handleDropPieceH_ok hval hstart hfind hturn hidx hdp] at hh
  rw [Prod.mk.injEq] at hh
  obtain ⟨-, he⟩ := hh
  rw [← he, hmate, hstale]
  rfl

/-- Witness for `C7_stalemate_emission_hardened`: the stalemating queen drop
of `roomC7`, handled by the hardened variant. -/
theorem C7_stalemate_emission_hardened_witness :
    roomC7aH.2 = [SEvent.gameStateB, SEvent.gameOver none "stalemate"
      (getPlayerBoard 0)] :=
  C7_stalemate_emission_hardened roomC7 100 PieceType.queen 1 2 roomC7aH.1
    roomC7aH.2 ⟨100, 0⟩ 0 c7s2 (by decide) (by decide) (by decide)
    (by decide) (by decide) (by decide) rfl (by decide) (by decide)

/-! ### Claim C8 -/

theorem mem_allSquares {r c : Int} :
    (r, c) ∈ allSquares ↔ (0 ≤ r ∧ r ≤ 7 ∧ 0 ≤ c ∧ c ≤ 7) := by
  unfold allSquares
  rw [List.mem_flatMap]
  constructor
  · rintro ⟨a, ha, hm⟩
    rw [List.mem_map] at hm
    obtain ⟨b, hb, heq⟩ := hm
    rw [List.mem_range] at ha hb
    rw [Prod.mk.injEq] at heq
    obtain ⟨h1, h2⟩ := heq
    omega
  · intro h
    refine ⟨r.toNat, ?_, ?_⟩
    · rw [List.mem_range]
      omega
    · rw [List.mem_map]
      refine ⟨c.toNat, ?_, ?_⟩
      · rw [List.mem_range]
        omega
      · rw [Prod.mk.injEq]
        constructor <;> omega

theorem dropPiece_success_iff {s : GameState} {pt : PieceType} {row col : Int}
    {color : Color} :
    (dropPiece s pt row col color).success = true ↔
      (s.turn = color ∧ canDropPiece s.board pt row col color = true ∧
       isInCheck (setB s.board row col (some ⟨pt, color⟩)) color = false) := by
  constructor
  · intro h
    cases hres : dropPiece s pt row col color with
    | err msg => rw [hres] at h; exact absurd h (by simp [DropResult.success])
    | ok s2 =>
      obtain ⟨h1, h2, h3, -⟩ := dropPiece_ok_inv hres
      exact ⟨h1, h2, h3⟩
  · rintro ⟨h1, h2, h3⟩
    unfold dropPiece
    rw [if_neg (by simp [h1]), if_neg (by simp [h2]), if_neg (by simp [h3])]
    rfl

/-- C8 (confirmed): for every board square, `getValidDropSquares` lists
`(row, col)` exactly when `dropPiece` with the same piece type and color
succeeds on a game state holding that board whose turn equals that color. -/
theorem C8_valid_drop_squares_iff :
    ∀ (gs : GameState) (pt : PieceType) (color : Color) (r c : Int),
      gs.turn = color → 0 ≤ r → r ≤ 7 → 0 ≤ c → c ≤ 7 →
      ((r, c) ∈ getValidDropSquares gs.board pt color ↔
        (dropPiece gs pt r c color).success = true) := by
  intro gs pt color r c ht h1 h2 h3 h4
  rw [getValidDropSquares, List.mem_filter, dropPiece_success_iff]
  constructor
  · rintro ⟨-, hp⟩
    simp only [Bool.and_eq_true, Bool.not_eq_true'] at hp
    exact ⟨ht, hp.1, hp.2⟩
  · rintro ⟨-, hcd, hni⟩
    refine ⟨mem_allSquares.mpr ⟨h1, h2, h3, h4⟩, ?_⟩
    simp only [Bool.and_eq_true, Bool.not_eq_true']
    exact ⟨hcd, hni⟩

/-- Witness for `C8_valid_drop_squares_iff`: on the `staleState` board the
square (1,2) is a listed queen-drop square, matching the successful drop. -/
theorem C8_valid_drop_squares_iff_witness :
    (1, 2) ∈ getValidDropSquares staleState.board PieceType.queen
      Color.white :=
  (C8_valid_drop_squares_iff staleState PieceType.queen Color.white 1 2 rfl
    (by decide) (by decide) (by decide) (by decide)).mpr (by decide)

/-! ### Claim C10 -/

theorem findKing_setB_none {b : Board} {color : Color} {r c : Int}
    {pt : PieceType} {col' : Color} (h : findKing b color = none)
    (hpt : pt ≠ PieceType.king) :
    findKing (setB b r c (some ⟨pt, col'⟩)) color = none := by
  rw [findKing, List.find?_eq_none] at h ⊢
  intro sq hsq
  have hold := h sq hsq
  simp only [Bool.not_eq_true] at hold ⊢
  unfold isKingAt at hold ⊢
  by_cases heq : sq.1 = r ∧ sq.2 = c
  · by_cases hv : isValidPosition r c = true
    · rw [heq.1, heq.2, at?_setB_self _ _ hv]
      simp [beq_iff_eq, hpt]
    · rw [setB_invalid _ _ (by revert hv; cases isValidPosition r c <;> simp)]
      exact hold
  · have hne : sq.1 ≠ r ∨ sq.2 ≠ c := by
      by_cases h1 : sq.1 = r
      · exact Or.inr fun h2 => heq ⟨h1, h2⟩
      · exact Or.inl h1
    rw [at?_setB_ne _ _ hne]
    exact hold

/-- C10 (confirmed): `isInCheck` returns `false` for a color whose king is
absent from the board, so the legality filter, drop simulation and terminal
detection treat a kingless side as never in check; in particular a drop of a
non-king piece on such a board proceeds normally whenever the plain
`canDropPiece` test passes (with the dropping side to move). -/
theorem C10_kingless_never_in_check :
    ∀ (b : Board) (color : Color),
      findKing b color = none →
      isInCheck b color = false ∧
      (∀ (gs : GameState) (pt : PieceType) (r c : Int),
        gs.board = b → gs.turn = color → pt ≠ PieceType.king →
        canDropPiece b pt r c color = true →
        (dropPiece gs pt r c color).success = true) := by
  intro b color hfk
  constructor
  · unfold isInCheck
    rw [hfk]
  · intro gs pt r c hb ht hpt hcd
    rw [dropPiece_success_iff]
    refine ⟨ht, by rw [hb]; exact hcd, ?_⟩
    rw [hb]
    unfold isInCheck
    rw [findKing_setB_none hfk hpt]

/-- Witness for `C10_kingless_never_in_check`: the empty board. -/
theorem C10_kingless_never_in_check_witness :
    isInCheck emptyB Color.white = false ∧
    (dropPiece kinglessState PieceType.queen 3 3 Color.white).success =
      true := by
  have h := C10_kingless_never_in_check emptyB Color.white (by decide)
  exact ⟨h.1, h.2 kinglessState PieceType.queen 3 3 rfl rfl (by decide)
    (by decide)⟩

/-! ### The `epOK` invariant holds initially and is preserved, so the
hypothesis of the conservation theorem holds in every reachable session. -/

theorem epOK_createGameState : epOK createGameState := by
  unfold epOK createGameState
  exact True.intro

theorem dropSuccState_enPassantTarget (s : GameState) (pt : PieceType)
    (row col : Int) (color : Color) :
    (dropSuccState s pt row col color).enPassantTarget = none := by
  unfold dropSuccState
  rw [recomputeTerminal_enPassantTarget]

theorem epOK_dropPiece {s : GameState} {pt : PieceType} {row col : Int}
    {color : Color} {s2 : GameState}
    (h : dropPiece s pt row col color = .ok s2) : epOK s2 := by
  obtain ⟨-, -, -, hs2⟩ := dropPiece_ok_inv h
  subst hs2
  unfold epOK
  rw [dropSuccState_enPassantTarget]
  exact True.intro

theorem epOK_makeMove {s : GameState} {fr fc tr tc : Int}
    {pr : Option PieceType} {s2 : GameState} {cap : Option Piece}
    (h : makeMove s fr fc tr tc pr = .ok s2 cap) : epOK s2 := by
  obtain ⟨piece, m, hp, hcol, hmem, hm1, hm2, hs', hcapEq⟩ := makeMove_ok_inv h
  subst hm1
  subst hm2
  have F := legal_facts hp hmem
  subst hs'
  unfold epOK
  rw [succState_enPassantTarget]
  unfold newEpTarget
  by_cases hcond : piece.type = PieceType.pawn ∧ (m.toRow - fr).natAbs = 2
  case neg =>
    rw [if_neg hcond]
    exact True.intro
  case pos =>
    rw [if_pos hcond]
    show at? (succState s piece m fr fc m.toRow m.toCol pr).board
      ((fr + m.toRow) / 2) fc = none
    obtain ⟨hpt, habs⟩ := hcond
    obtain ⟨hepf, htc, hsr, hmid, htr⟩ := F.dbl hpt habs
    have hcn : m.castling = none := F.castle_none (by rw [hpt]; decide)
    have hvfr := isValidPosition_iff.mp (at?_some_valid hp)
    rw [succState_board]
    have hPP : ¬(piece.type = PieceType.pawn ∧
        m.toRow = (if piece.color = Color.white then (0 : Int) else 7)) := by
      rintro ⟨-, hpr⟩
      by_cases hw : piece.color = Color.white
      · rw [if_pos hw] at hpr htr hsr
        omega
      · rw [if_neg hw] at hpr htr hsr
        omega
    have hmid2 : ((fr + m.toRow) / 2 : Int) =
        fr + (if piece.color = Color.white then -1 else 1) := by
      by_cases hw : piece.color = Color.white <;>
        simp only [hw, reduceIte] at htr ⊢ <;> omega
    have hbV : newBoardOfMove s.board piece m fr fc m.toRow m.toCol pr =
        setB (setB s.board m.toRow m.toCol (some piece)) fr fc none := by
      simp only [newBoardOfMove, hcn, hepf, reduceIte]
      rw [if_neg hPP]
      rfl
    rw [hbV, hmid2, htc]
    have hdir : (fr + (if piece.color = Color.white then (-1 : Int) else 1))
        ≠ fr := by
      by_cases hw : piece.color = Color.white <;> simp [hw] <;> omega
    have hdir2 : (fr + (if piece.color = Color.white then (-1 : Int) else 1))
        ≠ m.toRow := by
      by_cases hw : piece.color = Color.white <;>
        simp only [hw, reduceIte] at htr ⊢ <;> omega
    rw [at?_setB_ne _ _ (Or.inl hdir), at?_setB_ne _ _ (Or.inl hdir2)]
    exact hmid
